import Mathlib

/-!
Verification of the MCP host tool-dispatch layer (mcp_host.py) and the hello
stdio JSON-RPC server (mcp_tools/hello/hello_server.py).

The Python code is shallowly embedded: JSON values become the inductive `JVal`
(numeric values that occur in this program are integers, so `JVal` carries
`Int`); Python dicts become ordered association lists; Python operations that
can raise are modelled in `Except String`; subprocess execution is an oracle
`List String → ProcOutcome` carried in an `Env` record.
-/

/-- A JSON-like Python value.  Objects are ordered association lists, matching
the insertion order of Python dicts. -/
inductive JVal where
  | null : JVal
  | bool (b : Bool) : JVal
  | int (n : Int) : JVal
  | str (s : String) : JVal
  | arr (xs : List JVal) : JVal
  | obj (kvs : List (String × JVal)) : JVal

/-- Left and right curly brace characters, used when building Python/JSON text. -/
def lbraceChar : Char := Char.ofNat 123

def rbraceChar : Char := Char.ofNat 125

def lbraceStr : String := String.singleton lbraceChar

def rbraceStr : String := String.singleton rbraceChar

/-- Python truthiness: `None`, `False`, `0`, `""`, `[]`, and empty dicts are
falsy, everything else is truthy. -/
def pyTruthy : JVal → Bool
  | .null => false
  | .bool b => b
  | .int n => !(n == 0)
  | .str s => !(s == "")
  | .arr xs => !xs.isEmpty
  | .obj kvs => !kvs.isEmpty

/-- Python `a or b`: the first operand if truthy, otherwise the second. -/
def pyOr (a b : JVal) : JVal := if pyTruthy a then a else b

/-- Python `v == s` for a string literal `s`: true exactly when `v` is the
equal string (no other JSON value compares equal to a `str`). -/
def jvalEqStr (v : JVal) (s : String) : Bool :=
  match v with
  | .str t => t == s
  | _ => false

/-- A Python dict as passed around by the host code. -/
abbrev Args := List (String × JVal)

/-- First binding of a key in an association list (Python dicts hold at most
one binding per key, so first = only). -/
def objGet (kvs : Args) (k : String) : JVal :=
  match kvs.find? (fun kv => kv.1 == k) with
  | some kv => kv.2
  | none => JVal.null

/-- Python `d.get(k)`: the value if present, `None` otherwise. -/
def argsGet (args : Args) (k : String) : JVal := objGet args k

/-- Python `d.get(k, default)`: the default applies only when the key is
absent, not when the stored value is falsy. -/
def argsGetD (args : Args) (k : String) (d : JVal) : JVal :=
  match args.find? (fun kv => kv.1 == k) with
  | some kv => kv.2
  | none => d

/-- Field lookup on a result object, for stating properties of produced
`InvocationResult` mappings. -/
def jlookup (v : JVal) (k : String) : Option JVal :=
  match v with
  | .obj kvs => (kvs.find? (fun kv => kv.1 == k)).map (fun kv => kv.2)
  | _ => none

/-- Decimal digit character. -/
def digitChar (d : Nat) : Char := Char.ofNat (48 + d)

/-- Digits of a positive natural, most significant first, prepended to `acc`. -/
def natToCharsAux (n : Nat) (acc : List Char) : List Char :=
  if h : n = 0 then acc
  else natToCharsAux (n / 10) (digitChar (n % 10) :: acc)
termination_by n
decreasing_by exact Nat.div_lt_self (Nat.pos_of_ne_zero h) (by omega)

def natChars (n : Nat) : List Char := natToCharsAux n []

/-- Decimal representation of a natural number, as Python `str` produces it. -/
def natStrChars (n : Nat) : List Char :=
  if n = 0 then [digitChar 0] else natChars n

/-- Decimal representation of an integer, as Python `str` produces it. -/
def intStrChars : Int → List Char
  | .ofNat m => natStrChars m
  | .negSucc m => Char.ofNat 45 :: natStrChars (m + 1)

def intStr (n : Int) : String := String.mk (intStrChars n)

/-- Interleave a separator between the strings of a list. -/
def joinSep (sep : String) : List String → String
  | [] => ""
  | [x] => x
  | x :: y :: rest => x ++ sep ++ joinSep sep (y :: rest)

/-- Quote a string the way Python repr does. -/
def pyReprStr (s : String) : String :=
  let sq : Char := Char.ofNat 39
  let dq : Char := Char.ofNat 34
  let q : Char := if s.data.contains sq && !(s.data.contains dq) then dq else sq
  let esc : Char → List Char := fun c =>
    if c = q || c = Char.ofNat 92 then [Char.ofNat 92, c]
    else if c = Char.ofNat 10 then [Char.ofNat 92, 'n']
    else if c = Char.ofNat 13 then [Char.ofNat 92, 'r']
    else if c = Char.ofNat 9 then [Char.ofNat 92, 't']
    else [c]
  String.mk (q :: (s.data.map esc).flatten ++ [q])

mutual

/-- Python `str(v)` for the values of our universe. -/
def pyStr : JVal → String
  | .null => "None"
  | .bool b => if b then "True" else "False"
  | .int n => intStr n
  | .str s => s
  | .arr xs => "[" ++ joinSep ", " (pyReprList xs) ++ "]"
  | .obj kvs => lbraceStr ++ joinSep ", " (pyReprMembers kvs) ++ rbraceStr

/-- Python `repr(v)`: like `str` except strings are quoted.  Strings are
rendered with single quotes (escaping backslash, the quote and common control
characters), switching to double quotes when the text contains a single quote
but no double quote, as Python repr does. -/
def pyRepr : JVal → String
  | .null => "None"
  | .bool b => if b then "True" else "False"
  | .int n => intStr n
  | .str s => pyReprStr s
  | .arr xs => "[" ++ joinSep ", " (pyReprList xs) ++ "]"
  | .obj kvs => lbraceStr ++ joinSep ", " (pyReprMembers kvs) ++ rbraceStr

def pyReprList : List JVal → List String
  | [] => []
  | x :: xs => pyRepr x :: pyReprList xs

def pyReprMembers : List (String × JVal) → List String
  | [] => []
  | (k, v) :: kvs => (pyReprStr k ++ ": " ++ pyRepr v) :: pyReprMembers kvs

end

/-- Value of a decimal digit character, if it is one. -/
def isDigitChar (c : Char) : Bool := 48 ≤ c.toNat && c.toNat ≤ 57

/-- Fold decimal digit characters into a natural number. -/
def digitsToNat (acc : Nat) : List Char → Nat
  | [] => acc
  | c :: cs => digitsToNat (acc * 10 + (c.toNat - 48)) cs

/-- Parse an optionally signed decimal integer from a character list; `none`
models Python `int()` raising `ValueError`. -/
def parseIntChars (cs : List Char) : Option Int :=
  match cs with
  | [] => none
  | c :: rest =>
    if c = Char.ofNat 45 then
      if rest ≠ [] && rest.all isDigitChar then some (-(Int.ofNat (digitsToNat 0 rest))) else none
    else if c = Char.ofNat 43 then
      if rest ≠ [] && rest.all isDigitChar then some (Int.ofNat (digitsToNat 0 rest)) else none
    else
      if (c :: rest).all isDigitChar then some (Int.ofNat (digitsToNat 0 (c :: rest))) else none

/-- Whitespace characters `int()` strips around a numeric string. -/
def intWsChar (c : Char) : Bool :=
  c = ' ' || c = Char.ofNat 9 || c = Char.ofNat 10 || c = Char.ofNat 13

/-- Strip leading and trailing whitespace from a character list. -/
def trimWsChars (cs : List Char) : List Char :=
  ((cs.dropWhile intWsChar).reverse.dropWhile intWsChar).reverse

/-- Python `int(v)`: identity on ints, 0/1 on bools, decimal parse on strings
(surrounding whitespace stripped); everything else raises. -/
def pyToInt : JVal → Except String Int
  | .int n => .ok n
  | .bool b => .ok (if b then 1 else 0)
  | .str s =>
    match parseIntChars (trimWsChars s.data) with
    | some n => .ok n
    | none => .error ("invalid literal for int() with base 10: " ++ s)
  | .null => .error "int() argument must not be None"
  | .arr _ => .error "int() argument must not be a list"
  | .obj _ => .error "int() argument must not be a dict"

/-- Python `k in v`: key membership for dicts, substring test for strings,
element equality for lists; raises TypeError on non-iterables. -/
def pyContains (k : String) : JVal → Except String Bool
  | .obj kvs => .ok (kvs.any (fun kv => kv.1 == k))
  | .str s => .ok (decide ((s.splitOn k).length ≥ 2))
  | .arr xs => .ok (xs.any (fun x => jvalEqStr x k))
  | .null => .error "argument of type NoneType is not iterable"
  | .bool _ => .error "argument of type bool is not iterable"
  | .int _ => .error "argument of type int is not iterable"

/-- Python `v[k]` for a string key: only dicts support it. -/
def pySubscript (v : JVal) (k : String) : Except String JVal :=
  match v with
  | .obj kvs =>
    match kvs.find? (fun kv => kv.1 == k) with
    | some kv => .ok kv.2
    | none => .error ("KeyError: " ++ k)
  | .str _ => .error "string indices must be integers"
  | .arr _ => .error "list indices must be integers"
  | _ => .error "value is not subscriptable"

/-- Python `d.get(k)` on an arbitrary value: raises AttributeError unless the
value is a dict. -/
def pyGet (v : JVal) (k : String) : Except String JVal :=
  match v with
  | .obj kvs => .ok (objGet kvs k)
  | _ => .error "object has no attribute get"

/-- Python `map(str, v)` materialised: lists map each element through `str`,
strings yield their characters, dicts yield their keys; other values raise
TypeError. -/
def pyIterStrs : JVal → Except String (List String)
  | .arr xs => .ok (xs.map pyStr)
  | .str s => .ok (s.data.map (fun c => String.singleton c))
  | .obj kvs => .ok (kvs.map (fun kv => kv.1))
  | .null => .error "NoneType object is not iterable"
  | .bool _ => .error "bool object is not iterable"
  | .int _ => .error "int object is not iterable"

/-- Double-quote character. -/
def quoteChar : Char := Char.ofNat 34

/-- Backslash character. -/
def bslashChar : Char := Char.ofNat 92

/-- Hexadecimal digit character (lowercase letters), as json.dumps emits. -/
def hexDigitChar (d : Nat) : Char :=
  if d < 10 then Char.ofNat (48 + d) else Char.ofNat (87 + d)

/-- Escape one character of a JSON string the way `json.dumps` with
`ensure_ascii=False` does: quote, backslash and the named control characters
get two-character escapes, remaining control characters get `\u00XX`, and
every other character (ASCII or not) passes through verbatim. -/
def jsonEscChar (c : Char) : List Char :=
  if c = quoteChar then [bslashChar, quoteChar]
  else if c = bslashChar then [bslashChar, bslashChar]
  else if c = Char.ofNat 10 then [bslashChar, 'n']
  else if c = Char.ofNat 13 then [bslashChar, 'r']
  else if c = Char.ofNat 9 then [bslashChar, 't']
  else if c = Char.ofNat 8 then [bslashChar, 'b']
  else if c = Char.ofNat 12 then [bslashChar, 'f']
  else if c.toNat < 32 then
    [bslashChar, 'u', '0', '0', hexDigitChar (c.toNat / 16), hexDigitChar (c.toNat % 16)]
  else [c]

def jsonEscBody (cs : List Char) : List Char := (cs.map jsonEscChar).flatten

/-- Serialization of a JSON string literal. -/
def serializeStr (s : String) : List Char :=
  quoteChar :: jsonEscBody s.data ++ [quoteChar]

mutual

/-- `json.dumps(v, ensure_ascii=False)` with the default separators
`", "` and `": "`, character by character. -/
def serialize : JVal → List Char
  | .null => "null".data
  | .bool true => "true".data
  | .bool false => "false".data
  | .int n => intStrChars n
  | .str s => serializeStr s
  | .arr xs => '[' :: serializeItems xs ++ [']']
  | .obj kvs => lbraceChar :: serializeMembers kvs ++ [rbraceChar]

def serializeItems : List JVal → List Char
  | [] => []
  | x :: xs => serialize x ++ serializeTail xs

def serializeTail : List JVal → List Char
  | [] => []
  | x :: xs => ',' :: ' ' :: (serialize x ++ serializeTail xs)

def serializeMembers : List (String × JVal) → List Char
  | [] => []
  | (k, v) :: kvs => serializeStr k ++ ':' :: ' ' :: (serialize v ++ serializeMemTail kvs)

def serializeMemTail : List (String × JVal) → List Char
  | [] => []
  | (k, v) :: kvs => ',' :: ' ' :: (serializeStr k ++ ':' :: ' ' :: (serialize v ++ serializeMemTail kvs))

end

/-- JSON whitespace. -/
def isWsChar (c : Char) : Bool :=
  c = ' ' || c = Char.ofNat 9 || c = Char.ofNat 10 || c = Char.ofNat 13

def skipWS : List Char → List Char
  | [] => []
  | c :: cs => if isWsChar c then skipWS cs else c :: cs

/-- Value of a hexadecimal digit character. -/
def hexVal (c : Char) : Option Nat :=
  if 48 ≤ c.toNat && c.toNat ≤ 57 then some (c.toNat - 48)
  else if 97 ≤ c.toNat && c.toNat ≤ 102 then some (c.toNat - 87)
  else if 65 ≤ c.toNat && c.toNat ≤ 70 then some (c.toNat - 55)
  else none

/-- Two-character escapes accepted after a backslash. -/
def jsonUnescChar (c : Char) : Option Char :=
  if c = quoteChar then some quoteChar
  else if c = bslashChar then some bslashChar
  else if c = '/' then some '/'
  else if c = 'n' then some (Char.ofNat 10)
  else if c = 'r' then some (Char.ofNat 13)
  else if c = 't' then some (Char.ofNat 9)
  else if c = 'b' then some (Char.ofNat 8)
  else if c = 'f' then some (Char.ofNat 12)
  else none

/-- Parse the body of a JSON string (the opening quote already consumed),
returning the unescaped characters and the input after the closing quote. -/
def parseStrChars : List Char → Option (List Char × List Char)
  | [] => none
  | c :: cs =>
    if c = quoteChar then some ([], cs)
    else if c = bslashChar then
      match cs with
      | [] => none
      | e :: cs2 =>
        if e = 'u' then
          match cs2 with
          | h1 :: h2 :: h3 :: h4 :: cs3 =>
            match hexVal h1, hexVal h2, hexVal h3, hexVal h4 with
            | some a, some b, some c2, some d =>
              match parseStrChars cs3 with
              | some (out, r) => some (Char.ofNat (((a * 16 + b) * 16 + c2) * 16 + d) :: out, r)
              | none => none
            | _, _, _, _ => none
          | _ => none
        else
          match jsonUnescChar e with
          | some u =>
            match parseStrChars cs2 with
            | some (out, r) => some (u :: out, r)
            | none => none
          | none => none
    else
      match parseStrChars cs with
      | some (out, r) => some (c :: out, r)
      | none => none

/-- Split leading decimal digits from the input. -/
def takeDigits : List Char → List Char × List Char
  | [] => ([], [])
  | c :: cs =>
    if isDigitChar c then (c :: (takeDigits cs).1, (takeDigits cs).2)
    else ([], c :: cs)

/-- `d[k] = v` on an ordered dict: overwrite in place if the key exists,
append otherwise. -/
def jsonInsert (kvs : List (String × JVal)) (k : String) (v : JVal) : List (String × JVal) :=
  match kvs with
  | [] => [(k, v)]
  | (k0, v0) :: rest => if k0 == k then (k0, v) :: rest else (k0, v0) :: jsonInsert rest k v

/-- Parse the keyword `true` (its first character already consumed). -/
def parseTrueTok : List Char → Option (JVal × List Char)
  | 'r' :: 'u' :: 'e' :: r => some (.bool true, r)
  | _ => none

/-- Parse the keyword `false` (its first character already consumed). -/
def parseFalseTok : List Char → Option (JVal × List Char)
  | 'a' :: 'l' :: 's' :: 'e' :: r => some (.bool false, r)
  | _ => none

/-- Parse the keyword `null` (its first character already consumed). -/
def parseNullTok : List Char → Option (JVal × List Char)
  | 'u' :: 'l' :: 'l' :: r => some (.null, r)
  | _ => none

/-- Parse a string value (the opening quote already consumed). -/
def parseQuoteBranch (cs : List Char) : Option (JVal × List Char) :=
  match parseStrChars cs with
  | some (out, r) => some (.str (String.mk out), r)
  | none => none

/-- Parse the digits of a negative number (the minus sign already consumed). -/
def parseNegNum (cs : List Char) : Option (JVal × List Char) :=
  match takeDigits cs with
  | ([], _) => none
  | (ds, r) => some (.int (-(Int.ofNat (digitsToNat 0 ds))), r)

/-- Parse a nonnegative number starting at the current position. -/
def parseNum (cs : List Char) : Option (JVal × List Char) :=
  match takeDigits cs with
  | (ds, r) => some (.int (Int.ofNat (digitsToNat 0 ds)), r)

mutual

/-- Recursive-descent JSON parser with a fuel bound, modelling `json.loads`
on the grammar this program writes and reads (null, booleans, decimal
integers, strings, arrays, objects).  Returns the value and the unconsumed
input.  Objects are folded with `jsonInsert`, which overwrites an existing
binding in place, as loading duplicate keys into a Python dict does. -/
def parseV (fuel : Nat) (cs : List Char) : Option (JVal × List Char) :=
  match fuel with
  | 0 => none
  | fuel + 1 => parseVAt fuel (skipWS cs)
termination_by (fuel, 0)

/-- Value dispatch on the first significant character. -/
def parseVAt (fuel : Nat) (cs : List Char) : Option (JVal × List Char) :=
  match cs with
  | [] => none
  | c :: cs1 =>
    if c = quoteChar then parseQuoteBranch cs1
    else if c = '[' then parseArrB fuel (skipWS cs1)
    else if c = lbraceChar then parseObjB fuel (skipWS cs1)
    else if c = 't' then parseTrueTok cs1
    else if c = 'f' then parseFalseTok cs1
    else if c = 'n' then parseNullTok cs1
    else if c = Char.ofNat 45 then parseNegNum cs1
    else if isDigitChar c then parseNum (c :: cs1)
    else none
termination_by (fuel, 4)

/-- Array body: empty array or a first item followed by more items. -/
def parseArrB (fuel : Nat) (cs2 : List Char) : Option (JVal × List Char) :=
  if cs2.head? = some ']' then some (.arr [], cs2.tail)
  else parseArrItems fuel cs2
termination_by (fuel, 3)

def parseArrItems (fuel : Nat) (cs2 : List Char) : Option (JVal × List Char) :=
  match parseV fuel cs2 with
  | some (v, r) =>
    match parseMoreItems fuel r with
    | some (vs, r2) => some (.arr (v :: vs), r2)
    | none => none
  | none => none
termination_by (fuel, 2)

/-- Object body: empty object or a first member followed by more members. -/
def parseObjB (fuel : Nat) (cs2 : List Char) : Option (JVal × List Char) :=
  if cs2.head? = some rbraceChar then some (.obj [], cs2.tail)
  else parseObjMembers fuel cs2
termination_by (fuel, 3)

def parseObjMembers (fuel : Nat) (cs2 : List Char) : Option (JVal × List Char) :=
  match parseOneMember fuel cs2 with
  | some (kv, r) =>
    match parseMoreMembers fuel r with
    | some (kvs, r2) =>
      some (.obj ((kv :: kvs).foldl (fun acc kv2 => jsonInsert acc kv2.1 kv2.2) []), r2)
    | none => none
  | none => none
termination_by (fuel, 2)

/-- After one array item: a comma and another item, or the closing bracket. -/
def parseMoreItems (fuel : Nat) (cs : List Char) : Option (List JVal × List Char) :=
  match fuel with
  | 0 => none
  | fuel + 1 => parseMoreItemsAt fuel (skipWS cs)
termination_by (fuel, 0)

def parseMoreItemsAt (fuel : Nat) (cs : List Char) : Option (List JVal × List Char) :=
  match cs with
  | c :: r =>
    if c = ',' then parseItemsCont fuel r
    else if c = ']' then some ([], r)
    else none
  | [] => none
termination_by (fuel, 4)

def parseItemsCont (fuel : Nat) (r : List Char) : Option (List JVal × List Char) :=
  match parseV fuel r with
  | some (v, r2) =>
    match parseMoreItems fuel r2 with
    | some (vs, r3) => some (v :: vs, r3)
    | none => none
  | none => none
termination_by (fuel, 3)

/-- One `"key": value` object member. -/
def parseOneMember (fuel : Nat) (cs : List Char) :
    Option ((String × JVal) × List Char) :=
  match fuel with
  | 0 => none
  | fuel + 1 => parseOneMemberAt fuel (skipWS cs)
termination_by (fuel, 0)

def parseOneMemberAt (fuel : Nat) (cs : List Char) :
    Option ((String × JVal) × List Char) :=
  match cs with
  | c :: cs1 => if c = quoteChar then parseMemberKey fuel cs1 else none
  | [] => none
termination_by (fuel, 4)

def parseMemberKey (fuel : Nat) (cs1 : List Char) :
    Option ((String × JVal) × List Char) :=
  match parseStrChars cs1 with
  | some (out, r) => parseMemberColon fuel out (skipWS r)
  | none => none
termination_by (fuel, 3)

def parseMemberColon (fuel : Nat) (out : List Char) (cs : List Char) :
    Option ((String × JVal) × List Char) :=
  match cs with
  | c :: r2 => if c = ':' then parseMemberVal fuel out r2 else none
  | [] => none
termination_by (fuel, 2)

def parseMemberVal (fuel : Nat) (out : List Char) (r2 : List Char) :
    Option ((String × JVal) × List Char) :=
  match parseV fuel r2 with
  | some (v, r3) => some ((String.mk out, v), r3)
  | none => none
termination_by (fuel, 1)

/-- After one object member: a comma and another member, or the closing brace. -/
def parseMoreMembers (fuel : Nat) (cs : List Char) :
    Option (List (String × JVal) × List Char) :=
  match fuel with
  | 0 => none
  | fuel + 1 => parseMoreMembersAt fuel (skipWS cs)
termination_by (fuel, 0)

def parseMoreMembersAt (fuel : Nat) (cs : List Char) :
    Option (List (String × JVal) × List Char) :=
  match cs with
  | c :: r =>
    if c = ',' then parseMembersCont fuel r
    else if c = rbraceChar then some ([], r)
    else none
  | [] => none
termination_by (fuel, 4)

def parseMembersCont (fuel : Nat) (r : List Char) :
    Option (List (String × JVal) × List Char) :=
  match parseOneMember fuel r with
  | some (kv, r2) =>
    match parseMoreMembers fuel r2 with
    | some (kvs, r3) => some (kv :: kvs, r3)
    | none => none
  | none => none
termination_by (fuel, 3)

end

/-- A character list that does not begin with a decimal digit (so a number
parse that stops here stops correctly). -/
def noDigitHead : List Char → Bool
  | [] => true
  | c :: _ => !(isDigitChar c)

/-- No two members of this association list share a key. -/
def keysNodupB : List (String × JVal) → Bool
  | [] => true
  | (k, _) :: rest => !(rest.any (fun kv => kv.1 == k)) && keysNodupB rest

mutual

/-- The values Python dicts can actually represent: every object, at every
depth, binds each key at most once. -/
def wellFormedJ : JVal → Bool
  | .null => true
  | .bool _ => true
  | .int _ => true
  | .str _ => true
  | .arr xs => wfList xs
  | .obj kvs => keysNodupB kvs && wfMembers kvs

def wfList : List JVal → Bool
  | [] => true
  | x :: xs => wellFormedJ x && wfList xs

def wfMembers : List (String × JVal) → Bool
  | [] => true
  | (_, v) :: kvs => wellFormedJ v && wfMembers kvs

end

mutual

/-- Node count of a value, a fuel bound for the parser. -/
def jsize : JVal → Nat
  | .null => 1
  | .bool _ => 1
  | .int _ => 1
  | .str _ => 1
  | .arr xs => jsizeL xs + 1
  | .obj kvs => jsizeM kvs + 1

def jsizeL : List JVal → Nat
  | [] => 1
  | x :: xs => jsize x + jsizeL xs + 1

def jsizeM : List (String × JVal) → Nat
  | [] => 1
  | (_, v) :: kvs => jsize v + jsizeM kvs + 1

end

theorem char_ne_of_toNat_ne {c d : Char} (h : c.toNat ≠ d.toNat) : c ≠ d :=
  fun e => h (congrArg Char.toNat e)

theorem digitChar_toNat {d : Nat} (h : d < 10) : (digitChar d).toNat = 48 + d := by
  have : ∀ e, e < 10 → (digitChar e).toNat = 48 + e := by decide
  exact this d h

theorem isDigitChar_digitChar {d : Nat} (h : d < 10) : isDigitChar (digitChar d) = true := by
  have : ∀ e, e < 10 → isDigitChar (digitChar e) = true := by decide
  exact this d h

theorem hexVal_hexDigitChar {d : Nat} (h : d < 16) : hexVal (hexDigitChar d) = some d := by
  have : ∀ e, e < 16 → hexVal (hexDigitChar e) = some e := by decide
  exact this d h

theorem natToCharsAux_zero (acc : List Char) : natToCharsAux 0 acc = acc := by
  rw [natToCharsAux]
  simp

theorem natToCharsAux_ne {n : Nat} (h : n ≠ 0) (acc : List Char) :
    natToCharsAux n acc = natToCharsAux (n / 10) (digitChar (n % 10) :: acc) := by
  rw [natToCharsAux]
  exact dif_neg h

theorem natToCharsAux_eq (n : Nat) : ∀ acc, natToCharsAux n acc = natChars n ++ acc := by
  induction n using Nat.strong_induction_on with
  | _ n ih =>
    intro acc
    by_cases h : n = 0
    · subst h
      simp [natChars, natToCharsAux_zero]
    · have hlt : n / 10 < n := Nat.div_lt_self (Nat.pos_of_ne_zero h) (by omega)
      rw [natToCharsAux_ne h, ih _ hlt]
      conv_rhs => rw [natChars, natToCharsAux_ne h, ih _ hlt]
      simp

theorem natChars_eq {n : Nat} (h : n ≠ 0) :
    natChars n = natChars (n / 10) ++ [digitChar (n % 10)] := by
  rw [natChars, natToCharsAux_ne h, natToCharsAux_eq]

theorem natChars_all_digits (n : Nat) : (natChars n).all isDigitChar = true := by
  induction n using Nat.strong_induction_on with
  | _ n ih =>
    by_cases h : n = 0
    · subst h
      simp [natChars, natToCharsAux_zero]
    · rw [natChars_eq h, List.all_append]
      have h1 := ih (n / 10) (Nat.div_lt_self (Nat.pos_of_ne_zero h) (by omega))
      have h2 := isDigitChar_digitChar (Nat.mod_lt n (by omega))
      simp [h1, h2]

theorem natStrChars_all_digits (n : Nat) : (natStrChars n).all isDigitChar = true := by
  by_cases h : n = 0
  · subst h
    decide
  · rw [natStrChars, if_neg h]
    exact natChars_all_digits n

theorem natStrChars_ne_nil (n : Nat) : natStrChars n ≠ [] := by
  by_cases h : n = 0
  · subst h
    decide
  · rw [natStrChars, if_neg h, natChars_eq h]
    simp

theorem digitsToNat_nil (acc : Nat) : digitsToNat acc [] = acc := rfl

theorem digitsToNat_cons (acc : Nat) (c : Char) (cs : List Char) :
    digitsToNat acc (c :: cs) = digitsToNat (acc * 10 + (c.toNat - 48)) cs := rfl

theorem digitsToNat_append (xs ys : List Char) : ∀ acc,
    digitsToNat acc (xs ++ ys) = digitsToNat (digitsToNat acc xs) ys := by
  induction xs with
  | nil => intro acc; simp only [List.nil_append, digitsToNat_nil]
  | cons c cs ih => intro acc; simp only [List.cons_append, digitsToNat_cons, ih]

theorem digitsToNat_natChars (n : Nat) : ∀ acc,
    digitsToNat acc (natChars n) = acc * 10 ^ (natChars n).length + n := by
  induction n using Nat.strong_induction_on with
  | _ n ih =>
    intro acc
    by_cases h : n = 0
    · subst h
      simp [natChars, natToCharsAux_zero, digitsToNat_nil]
    · rw [natChars_eq h, digitsToNat_append,
        ih (n / 10) (Nat.div_lt_self (Nat.pos_of_ne_zero h) (by omega))]
      have hd : (digitChar (n % 10)).toNat = 48 + n % 10 :=
        digitChar_toNat (Nat.mod_lt n (by omega))
      simp only [digitsToNat_cons, digitsToNat_nil, hd, List.length_append,
        List.length_cons, List.length_nil, pow_succ]
      have hm : 48 + n % 10 - 48 = n % 10 := by omega
      rw [hm]
      have := Nat.div_add_mod n 10
      ring_nf
      omega

theorem digitsToNat_natStrChars (n : Nat) : digitsToNat 0 (natStrChars n) = n := by
  by_cases h : n = 0
  · subst h
    decide
  · rw [natStrChars, if_neg h, digitsToNat_natChars]
    simp

theorem parseStrChars_quote (X : List Char) :
    parseStrChars (quoteChar :: X) = some ([], X) := by
  rw [parseStrChars.eq_def]
  simp

theorem parseStrChars_plain {c : Char} (h1 : c ≠ quoteChar) (h2 : c ≠ bslashChar)
    (X : List Char) :
    parseStrChars (c :: X) =
      match parseStrChars X with
      | some (out, r) => some (c :: out, r)
      | none => none := by
  rw [parseStrChars.eq_def]
  simp [h1, h2]

theorem parseStrChars_two {e u : Char} (he : jsonUnescChar e = some u) (hne : e ≠ 'u')
    (X : List Char) :
    parseStrChars (bslashChar :: e :: X) =
      match parseStrChars X with
      | some (out, r) => some (u :: out, r)
      | none => none := by
  rw [parseStrChars.eq_def]
  simp [hne, he, show bslashChar ≠ quoteChar from by decide]

theorem parseStrChars_u {h1 h2 h3 h4 : Char} {a b c2 d : Nat}
    (ha : hexVal h1 = some a) (hb : hexVal h2 = some b)
    (hc : hexVal h3 = some c2) (hd : hexVal h4 = some d) (X : List Char) :
    parseStrChars (bslashChar :: 'u' :: h1 :: h2 :: h3 :: h4 :: X) =
      match parseStrChars X with
      | some (out, r) => some (Char.ofNat (((a * 16 + b) * 16 + c2) * 16 + d) :: out, r)
      | none => none := by
  rw [parseStrChars.eq_def]
  simp [ha, hb, hc, hd, show bslashChar ≠ quoteChar from by decide]

theorem jsonEscBody_nil : jsonEscBody [] = [] := rfl

theorem jsonEscBody_cons (c : Char) (cs : List Char) :
    jsonEscBody (c :: cs) = jsonEscChar c ++ jsonEscBody cs := by
  simp [jsonEscBody]

theorem parseStrChars_escBody :
    ∀ (cs rest : List Char),
      parseStrChars (jsonEscBody cs ++ quoteChar :: rest) = some (cs, rest) := by
  intro cs
  induction cs with
  | nil =>
    intro rest
    rw [jsonEscBody_nil, List.nil_append]
    exact parseStrChars_quote rest
  | cons c cs ih =>
    intro rest
    rw [jsonEscBody_cons, List.append_assoc]
    simp only [jsonEscChar]
    split_ifs with hq hb hn hr ht hbk hf hlt
    · subst hq
      simp only [List.cons_append, List.nil_append]
      rw [parseStrChars_two (show jsonUnescChar quoteChar = some quoteChar from by decide)
        (by decide), ih]
    · subst hb
      simp only [List.cons_append, List.nil_append]
      rw [parseStrChars_two (show jsonUnescChar bslashChar = some bslashChar from by decide)
        (by decide), ih]
    · subst hn
      simp only [List.cons_append, List.nil_append]
      rw [parseStrChars_two (show jsonUnescChar 'n' = some (Char.ofNat 10) from by decide)
        (by decide), ih]
    · subst hr
      simp only [List.cons_append, List.nil_append]
      rw [parseStrChars_two (show jsonUnescChar 'r' = some (Char.ofNat 13) from by decide)
        (by decide), ih]
    · subst ht
      simp only [List.cons_append, List.nil_append]
      rw [parseStrChars_two (show jsonUnescChar 't' = some (Char.ofNat 9) from by decide)
        (by decide), ih]
    · subst hbk
      simp only [List.cons_append, List.nil_append]
      rw [parseStrChars_two (show jsonUnescChar 'b' = some (Char.ofNat 8) from by decide)
        (by decide), ih]
    · subst hf
      simp only [List.cons_append, List.nil_append]
      rw [parseStrChars_two (show jsonUnescChar 'f' = some (Char.ofNat 12) from by decide)
        (by decide), ih]
    · simp only [List.cons_append, List.nil_append]
      have hdiv : c.toNat / 16 < 16 := by omega
      have hmod : c.toNat % 16 < 16 := Nat.mod_lt _ (by omega)
      rw [parseStrChars_u (show hexVal '0' = some 0 from by decide)
        (show hexVal '0' = some 0 from by decide)
        (hexVal_hexDigitChar hdiv) (hexVal_hexDigitChar hmod), ih]
      have hv : ((0 * 16 + 0) * 16 + c.toNat / 16) * 16 + c.toNat % 16 = c.toNat := by
        omega
      rw [hv, Char.ofNat_toNat]
    · simp only [List.cons_append, List.nil_append]
      rw [parseStrChars_plain hq hb, ih]

theorem takeDigits_append {ds : List Char} (h1 : ds.all isDigitChar = true) :
    ∀ {rest : List Char}, noDigitHead rest = true → takeDigits (ds ++ rest) = (ds, rest) := by
  induction ds with
  | nil =>
    intro rest h2
    cases rest with
    | nil => rfl
    | cons c r =>
      simp only [noDigitHead, Bool.not_eq_true'] at h2
      simp only [List.nil_append, takeDigits]
      rw [if_neg (by simp [h2])]
  | cons c cs ih =>
    intro rest h2
    simp only [List.all_cons, Bool.and_eq_true] at h1
    simp only [List.cons_append, takeDigits, List.append_eq]
    rw [ih h1.2 h2, if_pos h1.1]

theorem char_toNat_facts {c : Char} (h : isDigitChar c = true) :
    48 ≤ c.toNat ∧ c.toNat ≤ 57 := by
  simp only [isDigitChar, Bool.and_eq_true, decide_eq_true_eq] at h
  exact h

theorem char_ne_of_lit {c d : Char} {n : Nat} (hd : d.toNat = n) (h : c.toNat ≠ n) :
    c ≠ d := fun e => h (by rw [e, hd])

theorem isWsChar_of_digit {c : Char} (h : isDigitChar c = true) : isWsChar c = false := by
  obtain ⟨h1, h2⟩ := char_toNat_facts h
  simp only [isWsChar, Bool.or_eq_false_iff, decide_eq_false_iff_not]
  refine ⟨⟨⟨?_, ?_⟩, ?_⟩, ?_⟩
  · exact char_ne_of_lit (show (' ').toNat = 32 from rfl) (by omega)
  · exact char_ne_of_lit (show (Char.ofNat 9).toNat = 9 from rfl) (by omega)
  · exact char_ne_of_lit (show (Char.ofNat 10).toNat = 10 from rfl) (by omega)
  · exact char_ne_of_lit (show (Char.ofNat 13).toNat = 13 from rfl) (by omega)

theorem skipWS_not_ws {c : Char} (h : isWsChar c = false) (cs : List Char) :
    skipWS (c :: cs) = c :: cs := by
  simp [skipWS, h]

theorem skipWS_ws {c : Char} (h : isWsChar c = true) (cs : List Char) :
    skipWS (c :: cs) = skipWS cs := by
  simp [skipWS, h]

theorem parseV_succ (fuel : Nat) (cs : List Char) :
    parseV (fuel + 1) cs = parseVAt fuel (skipWS cs) := by
  rw [parseV.eq_def]

theorem parseMoreItems_succ (fuel : Nat) (cs : List Char) :
    parseMoreItems (fuel + 1) cs = parseMoreItemsAt fuel (skipWS cs) := by
  rw [parseMoreItems.eq_def]

theorem parseOneMember_succ (fuel : Nat) (cs : List Char) :
    parseOneMember (fuel + 1) cs = parseOneMemberAt fuel (skipWS cs) := by
  rw [parseOneMember.eq_def]

theorem parseMoreMembers_succ (fuel : Nat) (cs : List Char) :
    parseMoreMembers (fuel + 1) cs = parseMoreMembersAt fuel (skipWS cs) := by
  rw [parseMoreMembers.eq_def]

theorem parseV_ws (fuel : Nat) (cs : List Char) :
    parseV fuel (' ' :: cs) = parseV fuel cs := by
  cases fuel with
  | zero => rw [parseV.eq_def, parseV.eq_def]
  | succ f => rw [parseV_succ, parseV_succ, skipWS_ws (by decide)]

theorem digit_not_special {c : Char} (h : isDigitChar c = true) :
    c ≠ quoteChar ∧ c ≠ '[' ∧ c ≠ lbraceChar ∧ c ≠ 't' ∧ c ≠ 'f' ∧ c ≠ 'n' ∧
      c ≠ Char.ofNat 45 ∧ c ≠ ']' ∧ c ≠ ',' ∧ c ≠ rbraceChar ∧ c ≠ ':' := by
  obtain ⟨h1, h2⟩ := char_toNat_facts h
  refine ⟨?_, ?_, ?_, ?_, ?_, ?_, ?_, ?_, ?_, ?_, ?_⟩
  · exact char_ne_of_lit (show quoteChar.toNat = 34 from rfl) (by omega)
  · exact char_ne_of_lit (show ('[').toNat = 91 from rfl) (by omega)
  · exact char_ne_of_lit (show lbraceChar.toNat = 123 from rfl) (by omega)
  · exact char_ne_of_lit (show ('t').toNat = 116 from rfl) (by omega)
  · exact char_ne_of_lit (show ('f').toNat = 102 from rfl) (by omega)
  · exact char_ne_of_lit (show ('n').toNat = 110 from rfl) (by omega)
  · exact char_ne_of_lit (show (Char.ofNat 45).toNat = 45 from rfl) (by omega)
  · exact char_ne_of_lit (show (']').toNat = 93 from rfl) (by omega)
  · exact char_ne_of_lit (show (',').toNat = 44 from rfl) (by omega)
  · exact char_ne_of_lit (show rbraceChar.toNat = 125 from rfl) (by omega)
  · exact char_ne_of_lit (show (':').toNat = 58 from rfl) (by omega)

theorem parseVAt_quote (fuel : Nat) (X : List Char) :
    parseVAt fuel (quoteChar :: X) = parseQuoteBranch X := by
  rw [parseVAt.eq_def]
  simp

theorem parseVAt_true (fuel : Nat) (X : List Char) :
    parseVAt fuel ('t' :: X) = parseTrueTok X := by
  rw [parseVAt.eq_def]
  simp [show ('t' : Char) ≠ quoteChar from by decide,
    show ('t' : Char) ≠ lbraceChar from by decide]

theorem parseVAt_false (fuel : Nat) (X : List Char) :
    parseVAt fuel ('f' :: X) = parseFalseTok X := by
  rw [parseVAt.eq_def]
  simp [show ('f' : Char) ≠ quoteChar from by decide,
    show ('f' : Char) ≠ lbraceChar from by decide]

theorem parseVAt_null (fuel : Nat) (X : List Char) :
    parseVAt fuel ('n' :: X) = parseNullTok X := by
  rw [parseVAt.eq_def]
  simp [show ('n' : Char) ≠ quoteChar from by decide,
    show ('n' : Char) ≠ lbraceChar from by decide]

theorem parseVAt_arr (fuel : Nat) (X : List Char) :
    parseVAt fuel ('[' :: X) = parseArrB fuel (skipWS X) := by
  rw [parseVAt.eq_def]
  simp [show ('[' : Char) ≠ quoteChar from by decide]

theorem parseVAt_obj (fuel : Nat) (X : List Char) :
    parseVAt fuel (lbraceChar :: X) = parseObjB fuel (skipWS X) := by
  rw [parseVAt.eq_def]
  simp [show lbraceChar ≠ quoteChar from by decide,
    show lbraceChar ≠ '[' from by decide]

theorem parseVAt_neg (fuel : Nat) (X : List Char) :
    parseVAt fuel (Char.ofNat 45 :: X) = parseNegNum X := by
  rw [parseVAt.eq_def]
  simp [show Char.ofNat 45 ≠ quoteChar from by decide,
    show Char.ofNat 45 ≠ lbraceChar from by decide,
    show Char.ofNat 45 ≠ '[' from by decide,
    show Char.ofNat 45 ≠ 't' from by decide,
    show Char.ofNat 45 ≠ 'f' from by decide,
    show Char.ofNat 45 ≠ 'n' from by decide]

theorem parseVAt_digit {c : Char} (h : isDigitChar c = true) (fuel : Nat) (X : List Char) :
    parseVAt fuel (c :: X) = parseNum (c :: X) := by
  obtain ⟨n1, n2, n3, n4, n5, n6, n7, _⟩ := digit_not_special h
  rw [parseVAt.eq_def]
  simp [n1, n2, n3, n4, n5, n6, n7, h]

theorem serialize_null : serialize .null = ['n', 'u', 'l', 'l'] := rfl

theorem serialize_true : serialize (.bool true) = ['t', 'r', 'u', 'e'] := rfl

theorem serialize_false : serialize (.bool false) = ['f', 'a', 'l', 's', 'e'] := rfl

theorem serialize_int (n : Int) : serialize (.int n) = intStrChars n := rfl

theorem serialize_str (s : String) : serialize (.str s) = serializeStr s := rfl

theorem serialize_arr (xs : List JVal) :
    serialize (.arr xs) = '[' :: serializeItems xs ++ [']'] := rfl

theorem serialize_obj (kvs : List (String × JVal)) :
    serialize (.obj kvs) = lbraceChar :: serializeMembers kvs ++ [rbraceChar] := rfl

theorem serializeItems_cons (x : JVal) (xs : List JVal) :
    serializeItems (x :: xs) = serialize x ++ serializeTail xs := rfl

theorem serializeTail_cons (x : JVal) (xs : List JVal) :
    serializeTail (x :: xs) = ',' :: ' ' :: (serialize x ++ serializeTail xs) := rfl

theorem serializeMembers_cons (k : String) (v : JVal) (kvs : List (String × JVal)) :
    serializeMembers ((k, v) :: kvs) =
      serializeStr k ++ ':' :: ' ' :: (serialize v ++ serializeMemTail kvs) := rfl

theorem serializeMemTail_cons (k : String) (v : JVal) (kvs : List (String × JVal)) :
    serializeMemTail ((k, v) :: kvs) =
      ',' :: ' ' :: (serializeStr k ++ ':' :: ' ' :: (serialize v ++ serializeMemTail kvs)) := rfl

theorem natStrChars_shape (m : Nat) :
    ∃ c t, natStrChars m = c :: t ∧ isDigitChar c = true := by
  have hne := natStrChars_ne_nil m
  have hall := natStrChars_all_digits m
  cases hcs : natStrChars m with
  | nil => exact absurd hcs hne
  | cons c t =>
    rw [hcs] at hall
    simp only [List.all_cons, Bool.and_eq_true] at hall
    exact ⟨c, t, rfl, hall.1⟩

theorem serialize_shape (v : JVal) :
    ∃ c t, serialize v = c :: t ∧ isWsChar c = false ∧ c ≠ ']' := by
  cases v with
  | null => exact ⟨'n', _, rfl, by decide, by decide⟩
  | bool b =>
    cases b with
    | true => exact ⟨'t', _, rfl, by decide, by decide⟩
    | false => exact ⟨'f', _, rfl, by decide, by decide⟩
  | int n =>
    cases n with
    | ofNat m =>
      obtain ⟨c, t, hct, hd⟩ := natStrChars_shape m
      refine ⟨c, t, ?_, isWsChar_of_digit hd, (digit_not_special hd).2.2.2.2.2.2.2.1⟩
      rw [serialize_int]
      exact hct
    | negSucc m =>
      exact ⟨Char.ofNat 45, natStrChars (m + 1), rfl, by decide, by decide⟩
  | str s => exact ⟨quoteChar, _, rfl, by decide, by decide⟩
  | arr xs => exact ⟨'[', _, rfl, by decide, by decide⟩
  | obj kvs => exact ⟨lbraceChar, _, rfl, by decide, by decide⟩

theorem noDigitHead_serializeTail (xs : List JVal) (rest : List Char) :
    noDigitHead (serializeTail xs ++ ']' :: rest) = true := by
  cases xs with
  | nil => rfl
  | cons x xs => rw [serializeTail_cons]; rfl

theorem jsize_arr (xs : List JVal) : jsize (.arr xs) = jsizeL xs + 1 := rfl

theorem jsize_obj (kvs : List (String × JVal)) : jsize (.obj kvs) = jsizeM kvs + 1 := rfl

theorem jsizeL_cons (x : JVal) (xs : List JVal) :
    jsizeL (x :: xs) = jsize x + jsizeL xs + 1 := rfl

theorem jsizeM_cons (k : String) (v : JVal) (kvs : List (String × JVal)) :
    jsizeM ((k, v) :: kvs) = jsize v + jsizeM kvs + 1 := rfl

theorem jsize_pos (v : JVal) : 1 ≤ jsize v := by
  cases v with
  | null => exact Nat.le_refl 1
  | bool b => exact Nat.le_refl 1
  | int n => exact Nat.le_refl 1
  | str s => exact Nat.le_refl 1
  | arr xs => rw [jsize_arr]; omega
  | obj kvs => rw [jsize_obj]; omega

theorem jsizeL_pos (xs : List JVal) : 1 ≤ jsizeL xs := by
  cases xs with
  | nil => exact Nat.le_refl 1
  | cons x xs => rw [jsizeL_cons]; omega

theorem jsizeM_pos (kvs : List (String × JVal)) : 1 ≤ jsizeM kvs := by
  cases kvs with
  | nil => exact Nat.le_refl 1
  | cons kv kvs => cases kv; rw [jsizeM_cons]; omega

theorem noDigitHead_serializeMemTail (kvs : List (String × JVal)) (rest : List Char) :
    noDigitHead (serializeMemTail kvs ++ rbraceChar :: rest) = true := by
  cases kvs with
  | nil => rfl
  | cons kv kvs =>
    obtain ⟨k, v⟩ := kv
    rw [serializeMemTail_cons]
    rfl

theorem jsonInsert_nil (k : String) (v : JVal) : jsonInsert [] k v = [(k, v)] := rfl

theorem jsonInsert_cons (k0 : String) (v0 : JVal) (rest : List (String × JVal))
    (k : String) (v : JVal) :
    jsonInsert ((k0, v0) :: rest) k v =
      if k0 == k then (k0, v) :: rest else (k0, v0) :: jsonInsert rest k v := rfl

theorem jsonInsert_absent :
    ∀ {kvs : List (String × JVal)} {k : String},
      kvs.any (fun kv => kv.1 == k) = false → ∀ v, jsonInsert kvs k v = kvs ++ [(k, v)] := by
  intro kvs
  induction kvs with
  | nil => intro k _ v; rfl
  | cons kv0 rest ih =>
    intro k h v
    obtain ⟨k0, v0⟩ := kv0
    simp only [List.any_cons, Bool.or_eq_false_iff] at h
    rw [jsonInsert_cons, if_neg (by simp [h.1]), ih h.2 v]
    rfl

theorem foldl_jsonInsert :
    ∀ (mems acc : List (String × JVal)),
      (∀ kv ∈ mems, acc.any (fun kv0 => kv0.1 == kv.1) = false) →
      keysNodupB mems = true →
      mems.foldl (fun a kv2 => jsonInsert a kv2.1 kv2.2) acc = acc ++ mems := by
  intro mems
  induction mems with
  | nil => intro acc _ _; simp
  | cons kv mems2 ih =>
    intro acc hab hnd
    obtain ⟨k, v⟩ := kv
    simp only [keysNodupB, Bool.and_eq_true, Bool.not_eq_true'] at hnd
    simp only [List.foldl_cons]
    rw [jsonInsert_absent (hab (k, v) (List.mem_cons_self _ _)) v]
    rw [ih (acc ++ [(k, v)]) ?_ hnd.2]
    · simp
    · intro kv2 hm
      rw [List.any_append, Bool.or_eq_false_iff]
      refine ⟨hab kv2 (List.mem_cons_of_mem _ hm), ?_⟩
      simp only [List.any_cons, List.any_nil, Bool.or_false]
      have : kv2.1 ≠ k := by
        intro he
        have := List.any_eq_false.mp hnd.1 kv2 hm
        simp [he] at this
      simp [beq_eq_false_iff_ne, this, Ne.symm this]

theorem parseMoreItemsAt_comma (fuel : Nat) (r : List Char) :
    parseMoreItemsAt fuel (',' :: r) = parseItemsCont fuel r := by
  rw [parseMoreItemsAt.eq_def]
  simp

theorem parseMoreItemsAt_close (fuel : Nat) (r : List Char) :
    parseMoreItemsAt fuel (']' :: r) = some ([], r) := by
  rw [parseMoreItemsAt.eq_def]
  simp [show (']' : Char) ≠ ',' from by decide]

theorem parseMoreMembersAt_comma (fuel : Nat) (r : List Char) :
    parseMoreMembersAt fuel (',' :: r) = parseMembersCont fuel r := by
  rw [parseMoreMembersAt.eq_def]
  simp

theorem parseMoreMembersAt_close (fuel : Nat) (r : List Char) :
    parseMoreMembersAt fuel (rbraceChar :: r) = some ([], r) := by
  rw [parseMoreMembersAt.eq_def]
  simp [show rbraceChar ≠ ',' from by decide]

theorem parseOneMemberAt_quote (fuel : Nat) (T : List Char) :
    parseOneMemberAt fuel (quoteChar :: T) = parseMemberKey fuel T := by
  rw [parseOneMemberAt.eq_def]
  simp

theorem parseMemberColon_colon (fuel : Nat) (out : List Char) (r2 : List Char) :
    parseMemberColon fuel out (':' :: r2) = parseMemberVal fuel out r2 := by
  rw [parseMemberColon.eq_def]
  simp

theorem parseOneMember_ws (fuel : Nat) (cs : List Char) :
    parseOneMember fuel (' ' :: cs) = parseOneMember fuel cs := by
  cases fuel with
  | zero => rw [parseOneMember.eq_def, parseOneMember.eq_def]
  | succ f => rw [parseOneMember_succ, parseOneMember_succ, skipWS_ws (by decide)]

theorem parseOneMember_serialize {fuel : Nat} {v : JVal} {k : String} {X : List Char}
    (hv : parseV fuel (serialize v ++ X) = some (v, X)) :
    parseOneMember (fuel + 1) (serializeStr k ++ ':' :: ' ' :: (serialize v ++ X)) =
      some ((k, v), X) := by
  rw [parseOneMember_succ]
  rw [show serializeStr k ++ ':' :: ' ' :: (serialize v ++ X) =
      quoteChar :: (jsonEscBody k.data ++ quoteChar :: ':' :: ' ' :: (serialize v ++ X)) from by
    simp [serializeStr]]
  rw [skipWS_not_ws (by decide), parseOneMemberAt_quote, parseMemberKey.eq_def,
    parseStrChars_escBody]
  show parseMemberColon fuel k.data (skipWS (':' :: ' ' :: (serialize v ++ X))) = some ((k, v), X)
  rw [skipWS_not_ws (by decide), parseMemberColon_colon, parseMemberVal.eq_def, parseV_ws, hv]

theorem parse_serialize_all :
    ∀ fuel : Nat,
      (∀ (v : JVal) (rest : List Char), wellFormedJ v = true → jsize v ≤ fuel →
          noDigitHead rest = true →
          parseV fuel (serialize v ++ rest) = some (v, rest)) ∧
      (∀ (xs : List JVal) (rest : List Char), wfList xs = true → jsizeL xs ≤ fuel →
          parseMoreItems fuel (serializeTail xs ++ ']' :: rest) = some (xs, rest)) ∧
      (∀ (kvs : List (String × JVal)) (rest : List Char), wfMembers kvs = true →
          jsizeM kvs ≤ fuel →
          parseMoreMembers fuel (serializeMemTail kvs ++ rbraceChar :: rest) =
            some (kvs, rest)) := by
  intro fuel
  induction fuel using Nat.strong_induction_on with
  | _ fuel ih =>
    cases fuel with
    | zero =>
      refine ⟨?_, ?_, ?_⟩
      · intro v rest _ hsz _
        have := jsize_pos v
        omega
      · intro xs rest _ hsz
        have := jsizeL_pos xs
        omega
      · intro kvs rest _ hsz
        have := jsizeM_pos kvs
        omega
    | succ f =>
      have ihf := ih f (Nat.lt_succ_self f)
      refine ⟨?_, ?_, ?_⟩
      · intro v rest hwf hsz hnd
        cases v with
        | null =>
          rw [serialize_null, parseV_succ,
            show (['n', 'u', 'l', 'l'] ++ rest : List Char) =
              'n' :: ('u' :: 'l' :: 'l' :: rest) from rfl,
            skipWS_not_ws (by decide), parseVAt_null]
          rfl
        | bool b =>
          cases b with
          | true =>
            rw [serialize_true, parseV_succ,
              show (['t', 'r', 'u', 'e'] ++ rest : List Char) =
                't' :: ('r' :: 'u' :: 'e' :: rest) from rfl,
              skipWS_not_ws (by decide), parseVAt_true]
            rfl
          | false =>
            rw [serialize_false, parseV_succ,
              show (['f', 'a', 'l', 's', 'e'] ++ rest : List Char) =
                'f' :: ('a' :: 'l' :: 's' :: 'e' :: rest) from rfl,
              skipWS_not_ws (by decide), parseVAt_false]
            rfl
        | int n =>
          cases n with
          | ofNat m =>
            obtain ⟨c, t, hct, hd⟩ := natStrChars_shape m
            have htd : takeDigits (natStrChars m ++ rest) = (natStrChars m, rest) :=
              takeDigits_append (natStrChars_all_digits m) hnd
            rw [serialize_int, show intStrChars (Int.ofNat m) = natStrChars m from rfl,
              parseV_succ, hct, List.cons_append, skipWS_not_ws (isWsChar_of_digit hd),
              parseVAt_digit hd,
              show (c :: (t ++ rest)) = natStrChars m ++ rest from by
                rw [hct, List.cons_append]]
            simp only [parseNum, htd]
            rw [digitsToNat_natStrChars]
          | negSucc m =>
            obtain ⟨c, t, hct, hd⟩ := natStrChars_shape (m + 1)
            have htd : takeDigits (natStrChars (m + 1) ++ rest) = (natStrChars (m + 1), rest) :=
              takeDigits_append (natStrChars_all_digits _) hnd
            rw [hct, List.cons_append] at htd
            rw [serialize_int,
              show intStrChars (Int.negSucc m) = Char.ofNat 45 :: natStrChars (m + 1) from rfl,
              parseV_succ, List.cons_append, skipWS_not_ws (by decide), parseVAt_neg, hct,
              List.cons_append]
            simp only [parseNegNum, htd]
            rw [show (c :: t) = natStrChars (m + 1) from hct.symm, digitsToNat_natStrChars]
            rfl
        | str s =>
          rw [serialize_str, parseV_succ,
            show serializeStr s ++ rest =
              quoteChar :: (jsonEscBody s.data ++ quoteChar :: rest) from by
              simp [serializeStr],
            skipWS_not_ws (by decide), parseVAt_quote]
          simp only [parseQuoteBranch, parseStrChars_escBody]
        | arr xs =>
          cases xs with
          | nil =>
            rw [serialize_arr, parseV_succ,
              show ('[' :: serializeItems [] ++ [']']) ++ rest = '[' :: (']' :: rest) from rfl,
              skipWS_not_ws (by decide), parseVAt_arr, skipWS_not_ws (by decide)]
            simp [parseArrB]
          | cons x xs2 =>
            obtain ⟨c, t, hct, hws, hnb⟩ := serialize_shape x
            have hwf2 : wellFormedJ x = true ∧ wfList xs2 = true := by
              have h0 : wellFormedJ (.arr (x :: xs2)) = (wellFormedJ x && wfList xs2) := rfl
              rw [h0, Bool.and_eq_true] at hwf
              exact hwf
            have hsz2 : jsize x ≤ f ∧ jsizeL xs2 ≤ f := by
              rw [jsize_arr, jsizeL_cons] at hsz
              have := jsizeL_pos xs2
              have := jsize_pos x
              omega
            rw [serialize_arr, parseV_succ,
              show ('[' :: serializeItems (x :: xs2) ++ [']']) ++ rest =
                '[' :: (serialize x ++ (serializeTail xs2 ++ ']' :: rest)) from by
                rw [serializeItems_cons]
                simp,
              skipWS_not_ws (by decide), parseVAt_arr, hct, List.cons_append,
              skipWS_not_ws hws]
            simp only [parseArrB, List.head?_cons]
            rw [if_neg (by simp [hnb])]
            rw [show (c :: (t ++ (serializeTail xs2 ++ ']' :: rest))) =
                serialize x ++ (serializeTail xs2 ++ ']' :: rest) from by
              rw [hct, List.cons_append]]
            simp only [parseArrItems]
            rw [ihf.1 x _ hwf2.1 hsz2.1 (noDigitHead_serializeTail xs2 rest)]
            show (match parseMoreItems f (serializeTail xs2 ++ ']' :: rest) with
              | some (vs, r2) => some (JVal.arr (x :: vs), r2)
              | none => none) = some (JVal.arr (x :: xs2), rest)
            rw [ihf.2.1 xs2 rest hwf2.2 hsz2.2]
        | obj kvs =>
          cases kvs with
          | nil =>
            rw [serialize_obj, parseV_succ,
              show (lbraceChar :: serializeMembers [] ++ [rbraceChar]) ++ rest =
                lbraceChar :: (rbraceChar :: rest) from rfl,
              skipWS_not_ws (by decide), parseVAt_obj, skipWS_not_ws (by decide)]
            simp [parseObjB]
          | cons kv kvs2 =>
            obtain ⟨k, v0⟩ := kv
            have hwf2 : keysNodupB ((k, v0) :: kvs2) = true ∧ wellFormedJ v0 = true ∧
                wfMembers kvs2 = true := by
              have h0 : wellFormedJ (.obj ((k, v0) :: kvs2)) =
                  (keysNodupB ((k, v0) :: kvs2) && (wellFormedJ v0 && wfMembers kvs2)) := rfl
              rw [h0, Bool.and_eq_true, Bool.and_eq_true] at hwf
              exact ⟨hwf.1, hwf.2.1, hwf.2.2⟩
            rw [jsize_obj, jsizeM_cons] at hsz
            have hv0p := jsize_pos v0
            have hm2p := jsizeM_pos kvs2
            cases f with
            | zero => omega
            | succ g =>
              have ihg := ih g (by omega)
              have hv : parseV g
                  (serialize v0 ++ (serializeMemTail kvs2 ++ rbraceChar :: rest)) =
                  some (v0, serializeMemTail kvs2 ++ rbraceChar :: rest) :=
                ihg.1 v0 _ hwf2.2.1 (by omega) (noDigitHead_serializeMemTail kvs2 rest)
              rw [serialize_obj, parseV_succ,
                show (lbraceChar :: serializeMembers ((k, v0) :: kvs2) ++ [rbraceChar]) ++ rest =
                  lbraceChar :: (serializeStr k ++ ':' :: ' ' ::
                    (serialize v0 ++ (serializeMemTail kvs2 ++ rbraceChar :: rest))) from by
                  rw [serializeMembers_cons]
                  simp,
                skipWS_not_ws (by decide), parseVAt_obj,
                show serializeStr k ++ ':' :: ' ' ::
                    (serialize v0 ++ (serializeMemTail kvs2 ++ rbraceChar :: rest)) =
                  quoteChar :: (jsonEscBody k.data ++ quoteChar :: ':' :: ' ' ::
                    (serialize v0 ++ (serializeMemTail kvs2 ++ rbraceChar :: rest))) from by
                  simp [serializeStr],
                skipWS_not_ws (by decide)]
              simp only [parseObjB, List.head?_cons]
              rw [if_neg (by decide)]
              simp only [parseObjMembers]
              rw [show quoteChar :: (jsonEscBody k.data ++ quoteChar :: ':' :: ' ' ::
                    (serialize v0 ++ (serializeMemTail kvs2 ++ rbraceChar :: rest))) =
                  serializeStr k ++ ':' :: ' ' ::
                    (serialize v0 ++ (serializeMemTail kvs2 ++ rbraceChar :: rest)) from by
                simp [serializeStr]]
              rw [parseOneMember_serialize hv]
              show (match parseMoreMembers (g + 1)
                  (serializeMemTail kvs2 ++ rbraceChar :: rest) with
                | some (kvs, r2) =>
                  some (JVal.obj (((k, v0) :: kvs).foldl
                    (fun acc kv2 => jsonInsert acc kv2.1 kv2.2) []), r2)
                | none => none) = some (JVal.obj ((k, v0) :: kvs2), rest)
              rw [ihf.2.2 kvs2 rest hwf2.2.2 (by omega)]
              show some (JVal.obj (((k, v0) :: kvs2).foldl
                  (fun acc kv2 => jsonInsert acc kv2.1 kv2.2) []), rest) =
                some (JVal.obj ((k, v0) :: kvs2), rest)
              rw [foldl_jsonInsert ((k, v0) :: kvs2) [] (by intro kv _; rfl) hwf2.1]
              rfl
      · intro xs rest hwfl hszl
        cases xs with
        | nil =>
          rw [parseMoreItems_succ,
            show serializeTail [] ++ ']' :: rest = ']' :: rest from rfl,
            skipWS_not_ws (by decide), parseMoreItemsAt_close]
        | cons x xs2 =>
          have hwf2 : wellFormedJ x = true ∧ wfList xs2 = true := by
            have h0 : wfList (x :: xs2) = (wellFormedJ x && wfList xs2) := rfl
            rw [h0, Bool.and_eq_true] at hwfl
            exact hwfl
          have hsz2 : jsize x ≤ f ∧ jsizeL xs2 ≤ f := by
            rw [jsizeL_cons] at hszl
            have := jsizeL_pos xs2
            have := jsize_pos x
            omega
          rw [parseMoreItems_succ, serializeTail_cons,
            show (',' :: ' ' :: (serialize x ++ serializeTail xs2)) ++ ']' :: rest =
              ',' :: (' ' :: (serialize x ++ (serializeTail xs2 ++ ']' :: rest))) from by
              simp,
            skipWS_not_ws (by decide), parseMoreItemsAt_comma]
          simp only [parseItemsCont]
          rw [parseV_ws, ihf.1 x _ hwf2.1 hsz2.1 (noDigitHead_serializeTail xs2 rest)]
          show (match parseMoreItems f (serializeTail xs2 ++ ']' :: rest) with
            | some (vs, r3) => some (x :: vs, r3)
            | none => none) = some (x :: xs2, rest)
          rw [ihf.2.1 xs2 rest hwf2.2 hsz2.2]
      · intro kvs rest hwfm hszm
        cases kvs with
        | nil =>
          rw [parseMoreMembers_succ,
            show serializeMemTail [] ++ rbraceChar :: rest = rbraceChar :: rest from rfl,
            skipWS_not_ws (by decide), parseMoreMembersAt_close]
        | cons kv kvs2 =>
          obtain ⟨k, v0⟩ := kv
          have hwf2 : wellFormedJ v0 = true ∧ wfMembers kvs2 = true := by
            have h0 : wfMembers ((k, v0) :: kvs2) = (wellFormedJ v0 && wfMembers kvs2) := rfl
            rw [h0, Bool.and_eq_true] at hwfm
            exact hwfm
          rw [jsizeM_cons] at hszm
          have hv0p := jsize_pos v0
          have hm2p := jsizeM_pos kvs2
          cases f with
          | zero => omega
          | succ g =>
            have ihg := ih g (by omega)
            have hv : parseV g
                (serialize v0 ++ (serializeMemTail kvs2 ++ rbraceChar :: rest)) =
                some (v0, serializeMemTail kvs2 ++ rbraceChar :: rest) :=
              ihg.1 v0 _ hwf2.1 (by omega) (noDigitHead_serializeMemTail kvs2 rest)
            rw [parseMoreMembers_succ, serializeMemTail_cons,
              show (',' :: ' ' :: (serializeStr k ++ ':' :: ' ' ::
                  (serialize v0 ++ serializeMemTail kvs2))) ++ rbraceChar :: rest =
                ',' :: (' ' :: (serializeStr k ++ ':' :: ' ' ::
                  (serialize v0 ++ (serializeMemTail kvs2 ++ rbraceChar :: rest)))) from by
                simp,
              skipWS_not_ws (by decide), parseMoreMembersAt_comma]
            simp only [parseMembersCont]
            rw [parseOneMember_ws, parseOneMember_serialize hv]
            show (match parseMoreMembers (g + 1)
                (serializeMemTail kvs2 ++ rbraceChar :: rest) with
              | some (kvs, r3) => some ((k, v0) :: kvs, r3)
              | none => none) = some ((k, v0) :: kvs2, rest)
            rw [ihf.2.2 kvs2 rest hwf2.2 (by omega)]

theorem serializeItems_nil : serializeItems [] = [] := rfl

theorem serializeTail_nil : serializeTail [] = [] := rfl

theorem serializeMembers_nil : serializeMembers [] = [] := rfl

theorem serializeMemTail_nil : serializeMemTail [] = [] := rfl

theorem jsizeL_nil : jsizeL [] = 1 := rfl

theorem jsizeM_nil : jsizeM [] = 1 := rfl

theorem serialize_length_bound :
    ∀ n : Nat,
      (∀ v, jsize v ≤ n → jsize v ≤ 2 * (serialize v).length) ∧
      (∀ xs, jsizeL xs ≤ n → jsizeL xs ≤ 2 * (serializeTail xs).length + 2) ∧
      (∀ kvs, jsizeM kvs ≤ n → jsizeM kvs ≤ 2 * (serializeMemTail kvs).length + 2) := by
  intro n
  induction n using Nat.strong_induction_on with
  | _ n ih =>
    refine ⟨?_, ?_, ?_⟩
    · intro v hv
      cases v with
      | null => simp [serialize_null, jsize]
      | bool b => cases b <;> simp [serialize_true, serialize_false, jsize]
      | int m =>
        have hone : 1 ≤ (serialize (.int m)).length := by
          cases m with
          | ofNat k =>
            obtain ⟨c, t, hct, _⟩ := natStrChars_shape k
            rw [serialize_int, show intStrChars (Int.ofNat k) = natStrChars k from rfl, hct]
            simp
          | negSucc k =>
            rw [serialize_int,
              show intStrChars (Int.negSucc k) = Char.ofNat 45 :: natStrChars (k + 1) from rfl]
            simp
        rw [show jsize (.int m) = 1 from rfl]
        omega
      | str s =>
        have : (serialize (.str s)).length =
            (jsonEscBody s.data).length + 2 := by
          rw [serialize_str]
          show (quoteChar :: (jsonEscBody s.data ++ [quoteChar])).length = _
          simp
        rw [show jsize (.str s) = 1 from rfl, this]
        omega
      | arr xs =>
        cases xs with
        | nil =>
          rw [jsize_arr, jsizeL_nil, serialize_arr, serializeItems_nil]
          simp
        | cons x xs2 =>
          have hszx : jsize x ≤ n - 1 := by
            rw [jsize_arr, jsizeL_cons] at hv
            have := jsizeL_pos xs2
            omega
          have hszxs : jsizeL xs2 ≤ n - 1 := by
            rw [jsize_arr, jsizeL_cons] at hv
            have := jsize_pos x
            omega
          have hn1 : n - 1 < n := by
            rw [jsize_arr, jsizeL_cons] at hv
            have := jsize_pos x
            have := jsizeL_pos xs2
            omega
          have ihx := (ih (n - 1) hn1).1 x hszx
          have ihxs := (ih (n - 1) hn1).2.1 xs2 hszxs
          rw [jsize_arr, jsizeL_cons, serialize_arr, serializeItems_cons]
          simp only [List.length_cons, List.length_append, List.length_singleton]
          omega
      | obj kvs =>
        cases kvs with
        | nil =>
          rw [jsize_obj, jsizeM_nil, serialize_obj, serializeMembers_nil]
          simp
        | cons kv kvs2 =>
          obtain ⟨k, v0⟩ := kv
          have hpos1 := jsize_pos v0
          have hpos2 := jsizeM_pos kvs2
          have hszv : jsize v0 ≤ n - 1 := by
            rw [jsize_obj, jsizeM_cons] at hv
            omega
          have hszm : jsizeM kvs2 ≤ n - 1 := by
            rw [jsize_obj, jsizeM_cons] at hv
            omega
          have hn1 : n - 1 < n := by
            rw [jsize_obj, jsizeM_cons] at hv
            omega
          have ihv := (ih (n - 1) hn1).1 v0 hszv
          have ihm := (ih (n - 1) hn1).2.2 kvs2 hszm
          rw [jsize_obj, jsizeM_cons, serialize_obj, serializeMembers_cons]
          simp only [List.length_cons, List.length_append, List.length_singleton]
          omega
    · intro xs hxs
      cases xs with
      | nil =>
        rw [jsizeL_nil, serializeTail_nil]
        simp
      | cons x xs2 =>
        have hpos1 := jsize_pos x
        have hpos2 := jsizeL_pos xs2
        have hszx : jsize x ≤ n - 1 := by
          rw [jsizeL_cons] at hxs
          omega
        have hszxs : jsizeL xs2 ≤ n - 1 := by
          rw [jsizeL_cons] at hxs
          omega
        have hn1 : n - 1 < n := by
          rw [jsizeL_cons] at hxs
          omega
        have ihx := (ih (n - 1) hn1).1 x hszx
        have ihxs := (ih (n - 1) hn1).2.1 xs2 hszxs
        rw [jsizeL_cons, serializeTail_cons]
        simp only [List.length_cons, List.length_append]
        omega
    · intro kvs hkvs
      cases kvs with
      | nil =>
        rw [jsizeM_nil, serializeMemTail_nil]
        simp
      | cons kv kvs2 =>
        obtain ⟨k, v0⟩ := kv
        have hpos1 := jsize_pos v0
        have hpos2 := jsizeM_pos kvs2
        have hszv : jsize v0 ≤ n - 1 := by
          rw [jsizeM_cons] at hkvs
          omega
        have hszm : jsizeM kvs2 ≤ n - 1 := by
          rw [jsizeM_cons] at hkvs
          omega
        have hn1 : n - 1 < n := by
          rw [jsizeM_cons] at hkvs
          omega
        have ihv := (ih (n - 1) hn1).1 v0 hszv
        have ihm := (ih (n - 1) hn1).2.2 kvs2 hszm
        rw [jsizeM_cons, serializeMemTail_cons]
        simp only [List.length_cons, List.length_append]
        omega

/-- One line written by `write_json`: `json.dumps(obj, ensure_ascii=False)`
followed by a newline. -/
def writeJsonLine (v : JVal) : List Char := serialize v ++ [Char.ofNat 10]

/-- `json.loads` on one line: parse a value and require only whitespace after
it. -/
def jsonLoads (cs : List Char) : Option JVal :=
  match parseV (2 * cs.length + 2) cs with
  | some (v, r) => if (skipWS r).isEmpty then some v else none
  | none => none

theorem jsonLoads_writeJsonLine {v : JVal} (h : wellFormedJ v = true) :
    jsonLoads (writeJsonLine v) = some v := by
  have hb := (serialize_length_bound (jsize v)).1 v (Nat.le_refl _)
  have hlen : (writeJsonLine v).length = (serialize v).length + 1 := by
    rw [writeJsonLine]
    simp
  have hp := (parse_serialize_all (2 * (writeJsonLine v).length + 2)).1 v [Char.ofNat 10]
    h (by omega) (by decide)
  rw [jsonLoads, show writeJsonLine v = serialize v ++ [Char.ofNat 10] from rfl] at *
  rw [hp]
  rfl

/-- The `HELLO_TOOL` descriptor of hello_server.py. -/
def helloToolDesc : JVal :=
  .obj [("name", .str "hello"), ("title", .str "Hello"),
    ("description",
      .str "Return a greeting containing the provided message and the current local date-time."),
    ("inputSchema", .obj [
      ("type", .str "object"),
      ("properties", .obj [("message", .obj [("type", .str "string"),
        ("description", .str "Message to include in the greeting.")])]),
      ("required", .arr [.str "message"]),
      ("additionalProperties", .bool false)])]

/-- A JSON-RPC error response as hello_server.py builds it. -/
def errorResp (reqId : JVal) (code : Int) (msg : String) : JVal :=
  .obj [("jsonrpc", .str "2.0"), ("id", reqId),
    ("error", .obj [("code", .int code), ("message", .str msg)])]

/-- The response of `handle_initialize`. -/
def initializeResp (reqId : JVal) : JVal :=
  .obj [("jsonrpc", .str "2.0"), ("id", reqId), ("result", .obj [
    ("protocolVersion", .str "2025-06-18"),
    ("capabilities", .obj [
      ("tools", .obj [("listChanged", .bool false)]),
      ("prompts", .obj [("listChanged", .bool false)]),
      ("resources", .obj [("listChanged", .bool false)])]),
    ("serverInfo", .obj [("name", .str "hello_server"),
      ("title", .str "MCP Hello Server"), ("version", .str "1.0.0")])])]

/-- The response of `handle_tools_list`. -/
def toolsListResp (reqId : JVal) : JVal :=
  .obj [("jsonrpc", .str "2.0"), ("id", reqId),
    ("result", .obj [("tools", .arr [helloToolDesc]), ("nextCursor", .null)])]

/-- The success response of `handle_tools_call`. -/
def toolsCallResult (reqId : JVal) (msg now : String) : JVal :=
  .obj [("jsonrpc", .str "2.0"), ("id", reqId), ("result", .obj [
    ("isError", .bool false),
    ("content", .arr [.obj [("type", .str "text"),
      ("text", .str ("hello: " ++ msg ++ " @ " ++ now))]])])]

/-- `handle_tools_call(req_id, params)`: an exception (modelled in the error
component) is caught by the caller and turned into a -32000 response. -/
def handleToolsCall (now : String) (reqId : JVal) (params : JVal) : Except String JVal :=
  match pyGet (pyOr params (.obj [])) "name" with
  | .error e => .error e
  | .ok name =>
    match pyGet (pyOr params (.obj [])) "arguments" with
    | .error e => .error e
    | .ok args0 =>
      if !(jvalEqStr name "hello") then
        .ok (errorResp reqId (-32602) ("Unknown tool: " ++ pyStr name))
      else
        match pyContains "message" (pyOr args0 (.obj [])) with
        | .error e => .error e
        | .ok hasMsg =>
          if !hasMsg then
            .ok (errorResp reqId (-32602) "Invalid params: \x27message\x27 (string) is required")
          else
            match pySubscript (pyOr args0 (.obj [])) "message" with
            | .error e => .error e
            | .ok mv =>
              match mv with
              | .str msg => .ok (toolsCallResult reqId msg now)
              | _ => .ok (errorResp reqId (-32602)
                  "Invalid params: \x27message\x27 (string) is required")

/-- One iteration of the hello server main loop, applied to a parsed message
object: the list of response lines the server emits for it.  `now` stands for
`datetime.now()` formatting at the moment of the call. -/
def serverHandleMessage (now : String) (req : List (String × JVal)) : List JVal :=
  let method := objGet req "method"
  let reqId := objGet req "id"
  let params := objGet req "params"
  if jvalEqStr method "initialize" then [initializeResp reqId]
  else if jvalEqStr method "tools/list" then [toolsListResp reqId]
  else if jvalEqStr method "tools/call" then
    match handleToolsCall now reqId params with
    | .ok r => [r]
    | .error e => [errorResp reqId (-32000) ("Server error: " ++ e)]
  else [errorResp reqId (-32601) ("Unknown method: " ++ pyStr method)]

/-- Outcome of one `subprocess.run` call, as seen by the invokers: normal
completion with exit code and captured streams, `TimeoutExpired`, or any other
exception while spawning. -/
inductive ProcOutcome where
  | completed (returncode : Int) (stdout stderr : String)
  | timedOut
  | startError (msg : String)

/-- The host environment: interpreter path, tool directory layout found on the
filesystem, the behavior of child processes, and the per-tool timeout values
read from `MCP_TOOL_TIMEOUT`. -/
structure Env where
  pyExe : String
  toolsRoot : String
  toolsRootExists : Bool
  helloDirExists : Bool
  helloPyExists : Bool
  helloBinExists : Bool
  helloShExists : Bool
  gitDirExists : Bool
  gitPrimaryExists : Bool
  gitAltExists : Bool
  runProc : List String → ProcOutcome
  helloTimeout : JVal
  gitTimeout : JVal

def pathJoin (a b : String) : String := a ++ "/" ++ b

/-- `str(args.get("text") or args.get("message") or args.get("name") or "hello")`. -/
def helloMessageOf (args : Args) : String :=
  pyStr (pyOr (pyOr (pyOr (argsGet args "text") (argsGet args "message"))
    (argsGet args "name")) (.str "hello"))

def helloDirOf (env : Env) : String := pathJoin env.toolsRoot "hello"

/-- The candidate commands the hello invoker builds, in priority order. -/
def helloCandidates (env : Env) (message : String) : List (List String) :=
  let pyClient := pathJoin (helloDirOf env) "hello_client.py"
  let binClient := pathJoin (helloDirOf env) "hello_client"
  let shClient := pathJoin (helloDirOf env) "hello.sh"
  (if env.helloPyExists then
    [[env.pyExe, pyClient, "--message", message], [env.pyExe, pyClient, message]] else []) ++
  (if env.helloBinExists then
    [[binClient, "--message", message], [binClient, message]] else []) ++
  (if env.helloShExists then
    [["bash", shClient, "--message", message], ["bash", shClient, message]] else [])

def cmdJ (cmd : List String) : JVal := .arr (cmd.map .str)

def helloSuccess (env : Env) (cmd : List String) (out err : String) : JVal :=
  .obj [("ok", .bool true), ("returncode", .int 0), ("stdout", .str out.trim),
    ("stderr", .str err.trim), ("command", cmdJ cmd), ("timed_out", .bool false),
    ("timeout_sec", env.helloTimeout)]

def helloFail (env : Env) (cmd : List String) (rc : Int) (out err : String) : JVal :=
  .obj [("ok", .bool false), ("returncode", .int rc), ("stdout", .str out.trim),
    ("stderr", .str err.trim), ("command", cmdJ cmd), ("timed_out", .bool false),
    ("timeout_sec", env.helloTimeout)]

def helloTimeoutErr (env : Env) (cmd : List String) : JVal :=
  .obj [("ok", .bool false),
    ("error", .str ("timeout after " ++ pyStr env.helloTimeout ++ "s")),
    ("command", cmdJ cmd), ("timed_out", .bool true), ("timeout_sec", env.helloTimeout)]

def helloExc (cmd : List String) (msg : String) : JVal :=
  .obj [("ok", .bool false), ("error", .str msg), ("command", cmdJ cmd)]

def helloNotFound (env : Env) : JVal :=
  .obj [("ok", .bool false), ("error", .str "Hello tool not found"),
    ("searched", .arr [.str (pathJoin (helloDirOf env) "hello_client.py"),
      .str (pathJoin (helloDirOf env) "hello_client"),
      .str (pathJoin (helloDirOf env) "hello.sh")])]

/-- The candidate loop of the hello invoker.  Alongside the result we collect
the list of commands handed to `subprocess.run`. -/
def helloLoop (env : Env) :
    List (List String) → Option JVal → List (List String) → JVal × List (List String)
  | [], lastErr, attempted =>
    (.obj [("ok", .bool false),
      ("error", lastErr.getD (.str "Unknown error while invoking hello tool"))], attempted)
  | cmd :: rest, lastErr, attempted =>
    match env.runProc cmd with
    | .completed rc out err =>
      if rc == 0 then (helloSuccess env cmd out err, attempted ++ [cmd])
      else helloLoop env rest (some (helloFail env cmd rc out err)) (attempted ++ [cmd])
    | .timedOut => helloLoop env rest (some (helloTimeoutErr env cmd)) (attempted ++ [cmd])
    | .startError m => helloLoop env rest (some (helloExc cmd m)) (attempted ++ [cmd])

/-- `_make_hello_invoker(tool_dir)`: the returned `_invoke(args)`.  The second
component records every command handed to `subprocess.run`. -/
def helloInvoke (env : Env) (args : Args) : JVal × List (List String) :=
  let message := helloMessageOf args
  let candidates := helloCandidates env message
  if candidates.isEmpty then (helloNotFound env, [])
  else helloLoop env candidates none []

/-- `str(args.get("repo") or args.get("repo_path") or ".")`. -/
def gitRepoOf (args : Args) : String :=
  pyStr (pyOr (pyOr (argsGet args "repo") (argsGet args "repo_path")) (.str "."))

/-- `str(args.get("cmd") or "status")`. -/
def gitCmdOf (args : Args) : String := pyStr (pyOr (argsGet args "cmd") (.str "status"))

def gitPrimaryPath (env : Env) : String :=
  pathJoin (pathJoin env.toolsRoot "git") "git_client.py"

def gitAltPath (env : Env) : String := pathJoin env.toolsRoot "git_client.py"

def gitClientPath (env : Env) : String :=
  if env.gitPrimaryExists then gitPrimaryPath env
  else if env.gitAltExists then gitAltPath env
  else gitPrimaryPath env

def gitBase (env : Env) (args : Args) : List String :=
  [env.pyExe, gitClientPath env, "--repo", gitRepoOf args]

/-- The local `run(argv)` of the git invoker: spawn the client and normalize
the outcome; also reports the attempted command line. -/
def gitRun (env : Env) (args : Args) (argv : List String) : JVal × List (List String) :=
  let cmdline := gitBase env args ++ argv
  match env.runProc cmdline with
  | .completed rc out err =>
    let outT := out.trim
    let errT := err.trim
    let parsed := if outT == "" then JVal.null else (jsonLoads outT.data).getD JVal.null
    (.obj [("ok", .bool (rc == 0)), ("returncode", .int rc), ("stdout", .str outT),
      ("stderr", .str errT), ("json", parsed), ("command", cmdJ cmdline),
      ("timed_out", .bool false), ("timeout_sec", env.gitTimeout)], [cmdline])
  | .timedOut =>
    (.obj [("ok", .bool false),
      ("error", .str ("timeout after " ++ pyStr env.gitTimeout ++ "s")),
      ("command", cmdJ cmdline), ("timed_out", .bool true),
      ("timeout_sec", env.gitTimeout)], [cmdline])
  | .startError m =>
    (.obj [("ok", .bool false), ("error", .str m), ("command", cmdJ cmdline)], [cmdline])

/-- A pure validation failure of the git invoker: `ok=false`, an error text,
and no command. -/
def gitValFail (msg : String) : JVal := .obj [("ok", .bool false), ("error", .str msg)]

/-- What one git `_invoke(args)` call decides to do: reject the arguments
with an error mapping, or spawn the client with one fixed argv shape.
An `Except.error` models an exception escaping the invoker (as Python
`int()` or `map()` on ill-typed arguments would). -/
inductive GitStep where
  | valFail (msg : String)
  | runArgv (argv : List String)

/-- The branch structure of `_make_git_invoker`: locate the client, then map
`cmd` to either a validation failure or the argv to run. -/
def gitPlanStep (env : Env) (args : Args) : Except String GitStep :=
  let cmd := gitCmdOf args
  if !(env.gitPrimaryExists || env.gitAltExists) then
    .ok (.valFail ("Git client not found at " ++ gitPrimaryPath env))
  else if cmd == "status" then
    .ok (.runArgv ["status"])
  else if cmd == "diff-unstaged" then
    match pyToInt (argsGetD args "context_lines" (.int 3)) with
    | .error e => .error e
    | .ok c => .ok (.runArgv ["diff-unstaged", "--context-lines", intStr c])
  else if cmd == "diff-staged" then
    match pyToInt (argsGetD args "context_lines" (.int 3)) with
    | .error e => .error e
    | .ok c => .ok (.runArgv ["diff-staged", "--context-lines", intStr c])
  else if cmd == "diff" then
    let target := pyStr (pyOr (pyOr (argsGet args "target") (argsGet args "revision"))
      (.str "HEAD"))
    match pyToInt (argsGetD args "context_lines" (.int 3)) with
    | .error e => .error e
    | .ok c => .ok (.runArgv ["diff", "--target", target, "--context-lines", intStr c])
  else if cmd == "add" then
    let files := pyOr (argsGet args "files") (.arr [])
    if !(pyTruthy files) then
      .ok (.valFail "\x27add\x27 requires \x27files\x27 list")
    else
      match pyIterStrs files with
      | .error e => .error e
      | .ok fs => .ok (.runArgv (["add", "--files"] ++ fs))
  else if cmd == "reset" then
    .ok (.runArgv ["reset"])
  else if cmd == "commit" then
    let msg := pyStr (pyOr (argsGet args "message") (.str ""))
    if msg == "" then .ok (.valFail "\x27commit\x27 requires \x27message\x27")
    else .ok (.runArgv ["commit", "--message", msg])
  else if cmd == "log" then
    match pyToInt (argsGetD args "max_count" (.int 10)) with
    | .error e => .error e
    | .ok mc => .ok (.runArgv ["log", "--max-count", intStr mc])
  else if cmd == "create-branch" then
    let name := pyStr (pyOr (pyOr (argsGet args "name") (argsGet args "branch_name"))
      (.str ""))
    if name == "" then .ok (.valFail "\x27create-branch\x27 requires \x27name\x27")
    else
      let sp := pyOr (argsGet args "start_point") (argsGet args "start-point")
      .ok (.runArgv (["create-branch", "--name", name]
        ++ (if pyTruthy sp then ["--start-point", pyStr sp] else [])))
  else if cmd == "checkout" then
    let name := pyStr (pyOr (pyOr (argsGet args "name") (argsGet args "branch_name"))
      (.str ""))
    if name == "" then .ok (.valFail "\x27checkout\x27 requires \x27name\x27")
    else .ok (.runArgv ["checkout", "--name", name])
  else if cmd == "show" then
    .ok (.runArgv ["show", "--revision", pyStr (pyOr (argsGet args "revision") (.str "HEAD"))])
  else if cmd == "init" then
    .ok (.runArgv ["init"])
  else if cmd == "branch" then
    let bt := pyStr (pyOr (argsGet args "branch_type") (.str "local"))
    let hasContains := argsGet args "contains"
    let hasNotContains := argsGet args "not_contains"
    .ok (.runArgv (["branch", "--type", bt]
      ++ (if pyTruthy hasContains then ["--contains", pyStr hasContains] else [])
      ++ (if pyTruthy hasNotContains then ["--not-contains", pyStr hasNotContains] else [])))
  else if cmd == "call" then
    let tool := pyStr (pyOr (argsGet args "tool") (.str ""))
    let payload := pyOr (argsGet args "json") (.obj [])
    .ok (.runArgv ["call", "--tool", tool, "--json", String.mk (serialize payload)])
  else
    .ok (.valFail ("unsupported git cmd: " ++ cmd))

/-- `_make_git_invoker(tool_dir)`: the returned `_invoke(args)`.  A validation
failure yields the error mapping with nothing spawned; otherwise the chosen
argv is run through `subprocess.run`. -/
def gitInvoke (env : Env) (args : Args) : Except String (JVal × List (List String)) :=
  match gitPlanStep env args with
  | .error e => .error e
  | .ok (.valFail m) => .ok (gitValFail m, [])
  | .ok (.runArgv argv) => .ok (gitRun env args argv)

/-- Discovery registers the hello tool when `mcp_tools/hello` exists. -/
def helloRegistered (env : Env) : Bool := env.toolsRootExists && env.helloDirExists

/-- Discovery registers the git tool when `mcp_tools/git` exists. -/
def gitRegistered (env : Env) : Bool := env.toolsRootExists && env.gitDirExists

/-- The response envelope of `dispatch_stub`. -/
def envelope (plan : Args) (result : JVal) : JVal :=
  .obj [("plan", .obj plan), ("result", result)]

/-- The fixed built-in pseudo-targets recognized by `dispatch_stub`. -/
def builtinTargets : List String :=
  ["cve", "pfcm", "product_options", "inspector", "hello", "git"]

/-- Calling `.get` on the `args` value requires it to be a dict. -/
def coerceArgs : JVal → Except String Args
  | .obj kvs => .ok kvs
  | _ => .error "object has no attribute get"

/-- `dispatch_stub(plan)`, with the commands handed to `subprocess.run` during
the dispatch collected in the second component. -/
def dispatchStub (env : Env) (plan : Args) : Except String (JVal × List (List String)) :=
  let target := argsGet plan "target"
  let argsVal := argsGetD plan "args" (.obj [])
  if jvalEqStr target "cve" then
    .ok (envelope plan (.obj [("affected", .bool false), ("checked", argsVal)]), [])
  else if jvalEqStr target "pfcm" then
    .ok (envelope plan (.obj [("status", .str "ok"),
      ("changes", .arr [.str "PCD:X=1"])]), [])
  else if jvalEqStr target "product_options" then
    .ok (envelope plan (.obj [("status", .str "ok"),
      ("message", .str "product options queried"), ("args", argsVal)]), [])
  else if jvalEqStr target "inspector" then
    .ok (envelope plan (.obj [("status", .str "ok"),
      ("checks", .arr [.str "env", .str "network", .str "permissions"])]), [])
  else if jvalEqStr target "hello" then
    if helloRegistered env then
      match coerceArgs argsVal with
      | .error e => .error e
      | .ok a => .ok (envelope plan (helloInvoke env a).1, (helloInvoke env a).2)
    else
      .ok (envelope plan (.obj [("ok", .bool false),
        ("error", .str "hello tool not found in registry")]), [])
  else if jvalEqStr target "git" then
    if gitRegistered env then
      match coerceArgs argsVal with
      | .error e => .error e
      | .ok a =>
        match gitInvoke env a with
        | .error e => .error e
        | .ok res => .ok (envelope plan res.1, res.2)
    else
      .ok (envelope plan (.obj [("ok", .bool false),
        ("error", .str "git tool not found in registry")]), [])
  else
    .ok (envelope plan (.obj [("status", .str "unsupported_target"),
      ("target", target)]), [])

/-- How one planning attempt ends: a parsed plan dict, an exception, or
exceeding the thread-join deadline. -/
inductive PlanOutcome where
  | planned (plan : Args)
  | failed (msg : String)
  | hung

/-- `plan_with_ollama_required(user_text, model, timeout)`: raises when the
ollama import failed, otherwise runs the timeout-protected planner and
propagates its exceptions. -/
def planWithOllamaRequired (ollamaAvailable : Bool) (importErr : String)
    (outcome : PlanOutcome) (timeoutStr : String) : Except String Args :=
  if !ollamaAvailable then
    .error ("Ollama is required but not available: " ++ importErr
      ++ "\nHint: If you have a local file named \x27ollama.py\x27 or a "
      ++ "\x27__pycache__/ollama*.pyc\x27, rename/delete it so it "
      ++ "doesn\x27t shadow the real package.")
  else
    match outcome with
    | .planned p => .ok p
    | .failed m => .error m
    | .hung => .error ("ollama planning timed out after " ++ timeoutStr ++ " seconds")

/-- `main()` of mcp_host.py: require ollama, plan, dispatch, print.  An
`Except.error` is an exception that terminates the host. -/
def hostMain (env : Env) (ollamaAvailable : Bool) (importErr : String)
    (outcome : PlanOutcome) : Except String (JVal × List (List String)) :=
  if !ollamaAvailable then
    .error ("Ollama is required but not available. Please install the ollama "
      ++ "package and ensure no local ollama.py shadows it.")
  else
    match planWithOllamaRequired ollamaAvailable importErr outcome "20.0" with
    | .error e => .error e
    | .ok plan => dispatchStub env plan

theorem wellFormedJ_null : wellFormedJ .null = true := rfl

theorem wellFormedJ_bool (b : Bool) : wellFormedJ (.bool b) = true := rfl

theorem wellFormedJ_int (n : Int) : wellFormedJ (.int n) = true := rfl

theorem wellFormedJ_str (s : String) : wellFormedJ (.str s) = true := rfl

theorem wellFormedJ_obj (kvs : List (String × JVal)) :
    wellFormedJ (.obj kvs) = (keysNodupB kvs && wfMembers kvs) := rfl

theorem wfMembers_nil : wfMembers [] = true := rfl

theorem wfMembers_cons (k : String) (v : JVal) (kvs : List (String × JVal)) :
    wfMembers ((k, v) :: kvs) = (wellFormedJ v && wfMembers kvs) := rfl

/-- The commonly probed environment: every tool present, every child process
failing with exit code 1. -/
def envAllFail : Env :=
  { pyExe := "/usr/bin/python3", toolsRoot := "mcp_tools", toolsRootExists := true,
    helloDirExists := true, helloPyExists := true, helloBinExists := false,
    helloShExists := false, gitDirExists := true, gitPrimaryExists := true,
    gitAltExists := false, runProc := fun _ => .completed 1 "" "boom",
    helloTimeout := .int 8, gitTimeout := .int 20 }

/-- Every tool present, every child process succeeding. -/
def envAllOk : Env :=
  { pyExe := "/usr/bin/python3", toolsRoot := "mcp_tools", toolsRootExists := true,
    helloDirExists := true, helloPyExists := true, helloBinExists := false,
    helloShExists := false, gitDirExists := true, gitPrimaryExists := true,
    gitAltExists := false, runProc := fun _ => .completed 0 "done" "",
    helloTimeout := .int 8, gitTimeout := .int 20 }

/-- Every tool present, every child process exceeding its deadline. -/
def envAllTimeout : Env :=
  { pyExe := "/usr/bin/python3", toolsRoot := "mcp_tools", toolsRootExists := true,
    helloDirExists := true, helloPyExists := true, helloBinExists := false,
    helloShExists := false, gitDirExists := true, gitPrimaryExists := true,
    gitAltExists := false, runProc := fun _ => .timedOut,
    helloTimeout := .int 8, gitTimeout := .int 20 }

theorem helloLoop_nil (env : Env) (lastErr : Option JVal) (att : List (List String)) :
    helloLoop env [] lastErr att =
      (.obj [("ok", .bool false),
        ("error", lastErr.getD (.str "Unknown error while invoking hello tool"))], att) := rfl

theorem helloLoop_cons (env : Env) (cmd : List String) (rest : List (List String))
    (lastErr : Option JVal) (att : List (List String)) :
    helloLoop env (cmd :: rest) lastErr att =
      match env.runProc cmd with
      | .completed rc out err =>
        if rc == 0 then (helloSuccess env cmd out err, att ++ [cmd])
        else helloLoop env rest (some (helloFail env cmd rc out err)) (att ++ [cmd])
      | .timedOut => helloLoop env rest (some (helloTimeoutErr env cmd)) (att ++ [cmd])
      | .startError m => helloLoop env rest (some (helloExc cmd m)) (att ++ [cmd]) := rfl

/-- Does one candidate fail (non-zero exit, timeout, or spawn failure)? -/
def attemptFails (env : Env) (cmd : List String) : Bool :=
  match env.runProc cmd with
  | .completed rc _ _ => !(rc == 0)
  | .timedOut => true
  | .startError _ => true

/-- The `last_err` entry the hello loop records for a failing candidate. -/
def lastErrOf (env : Env) (cmd : List String) : JVal :=
  match env.runProc cmd with
  | .completed rc out err => helloFail env cmd rc out err
  | .timedOut => helloTimeoutErr env cmd
  | .startError m => helloExc cmd m

theorem helloLoop_cons_completed {env : Env} {cmd : List String} {rc : Int}
    {out err : String} (hr : env.runProc cmd = .completed rc out err)
    (rest : List (List String)) (lastErr : Option JVal) (att : List (List String)) :
    helloLoop env (cmd :: rest) lastErr att =
      if rc == 0 then (helloSuccess env cmd out err, att ++ [cmd])
      else helloLoop env rest (some (helloFail env cmd rc out err)) (att ++ [cmd]) := by
  rw [helloLoop_cons, hr]

theorem helloLoop_cons_timedOut {env : Env} {cmd : List String}
    (hr : env.runProc cmd = .timedOut)
    (rest : List (List String)) (lastErr : Option JVal) (att : List (List String)) :
    helloLoop env (cmd :: rest) lastErr att =
      helloLoop env rest (some (helloTimeoutErr env cmd)) (att ++ [cmd]) := by
  rw [helloLoop_cons, hr]

theorem helloLoop_cons_startError {env : Env} {cmd : List String} {m : String}
    (hr : env.runProc cmd = .startError m)
    (rest : List (List String)) (lastErr : Option JVal) (att : List (List String)) :
    helloLoop env (cmd :: rest) lastErr att =
      helloLoop env rest (some (helloExc cmd m)) (att ++ [cmd]) := by
  rw [helloLoop_cons, hr]

theorem lastErrOf_completed {env : Env} {cmd : List String} {rc : Int} {out err : String}
    (hr : env.runProc cmd = .completed rc out err) :
    lastErrOf env cmd = helloFail env cmd rc out err := by
  rw [lastErrOf, hr]

theorem lastErrOf_timedOut {env : Env} {cmd : List String}
    (hr : env.runProc cmd = .timedOut) : lastErrOf env cmd = helloTimeoutErr env cmd := by
  rw [lastErrOf, hr]

theorem lastErrOf_startError {env : Env} {cmd : List String} {m : String}
    (hr : env.runProc cmd = .startError m) : lastErrOf env cmd = helloExc cmd m := by
  rw [lastErrOf, hr]

theorem helloLoop_allFail (env : Env) :
    ∀ (cs : List (List String)) (cmd0 : List String),
      (∀ c ∈ cmd0 :: cs, attemptFails env c = true) →
      ∀ (lastErr : Option JVal) (att : List (List String)),
        helloLoop env (cmd0 :: cs) lastErr att =
          (.obj [("ok", .bool false),
            ("error", lastErrOf env ((cmd0 :: cs).getLast (by simp)))],
           att ++ (cmd0 :: cs)) := by
  intro cs
  induction cs with
  | nil =>
    intro cmd0 hf lastErr att
    have h0 := hf cmd0 (by simp)
    have hgl : ([cmd0].getLast (by simp)) = cmd0 := rfl
    rw [hgl]
    simp only [attemptFails] at h0
    cases hr : env.runProc cmd0 with
    | completed rc out err =>
      rw [hr] at h0
      simp only [Bool.not_eq_true'] at h0
      rw [helloLoop_cons_completed hr, if_neg (by simp [h0]), helloLoop_nil,
        lastErrOf_completed hr]
      simp
    | timedOut =>
      rw [helloLoop_cons_timedOut hr, helloLoop_nil, lastErrOf_timedOut hr]
      simp
    | startError m =>
      rw [helloLoop_cons_startError hr, helloLoop_nil, lastErrOf_startError hr]
      simp
  | cons cmd1 cs2 ih =>
    intro cmd0 hf lastErr att
    have h0 := hf cmd0 (by simp)
    have hrest : ∀ c ∈ cmd1 :: cs2, attemptFails env c = true := by
      intro c hc
      exact hf c (by simp [hc])
    have hlast : ((cmd0 :: cmd1 :: cs2).getLast (by simp)) =
        ((cmd1 :: cs2).getLast (by simp)) := by
      rw [List.getLast_cons]
    rw [hlast]
    simp only [attemptFails] at h0
    cases hr : env.runProc cmd0 with
    | completed rc out err =>
      rw [hr] at h0
      simp only [Bool.not_eq_true'] at h0
      rw [helloLoop_cons_completed hr, if_neg (by simp [h0]), ih cmd1 hrest]
      simp
    | timedOut =>
      rw [helloLoop_cons_timedOut hr, ih cmd1 hrest]
      simp
    | startError m =>
      rw [helloLoop_cons_startError hr, ih cmd1 hrest]
      simp

theorem helloLoop_firstSuccess (env : Env) :
    ∀ (pre : List (List String)) (c : List String) (out err : String)
      (rest : List (List String)) (lastErr : Option JVal) (att : List (List String)),
      (∀ c2 ∈ pre, attemptFails env c2 = true) →
      env.runProc c = .completed 0 out err →
      helloLoop env (pre ++ c :: rest) lastErr att =
        (helloSuccess env c out err, att ++ pre ++ [c]) := by
  intro pre
  induction pre with
  | nil =>
    intro c out err rest lastErr att _ hc
    rw [List.nil_append, helloLoop_cons_completed hc, if_pos (by simp)]
    simp
  | cons c2 pre2 ih =>
    intro c out err rest lastErr att hf hc
    have h0 := hf c2 (by simp)
    have hrest : ∀ c3 ∈ pre2, attemptFails env c3 = true := by
      intro c3 hc3
      exact hf c3 (by simp [hc3])
    simp only [attemptFails] at h0
    rw [List.cons_append]
    cases hr : env.runProc c2 with
    | completed rc2 out2 err2 =>
      rw [hr] at h0
      simp only [Bool.not_eq_true'] at h0
      rw [helloLoop_cons_completed hr, if_neg (by simp [h0]), ih c out err rest _ _ hrest hc]
      simp
    | timedOut =>
      rw [helloLoop_cons_timedOut hr, ih c out err rest _ _ hrest hc]
      simp
    | startError m =>
      rw [helloLoop_cons_startError hr, ih c out err rest _ _ hrest hc]
      simp

theorem jlookup_cons_hit (k : String) (v : JVal) (rest : List (String × JVal)) :
    jlookup (.obj ((k, v) :: rest)) k = some v := by
  simp [jlookup, List.find?_cons]

theorem jlookup_cons_miss {k2 k : String} (h : (k2 == k) = false) (v : JVal)
    (rest : List (String × JVal)) :
    jlookup (.obj ((k2, v) :: rest)) k = jlookup (.obj rest) k := by
  simp [jlookup, List.find?_cons, h]

/-- The shapes a recorded `last_err` mapping can take in the hello loop. -/
def helloErrShape (env : Env) (e : JVal) : Prop :=
  (∃ cmd rc out err, e = helloFail env cmd rc out err) ∨
  (∃ cmd, e = helloTimeoutErr env cmd) ∨
  (∃ cmd m, e = helloExc cmd m) ∨
  e = .str "Unknown error while invoking hello tool"

/-- The shapes a hello invocation result can take. -/
def helloResultShape (env : Env) (r : JVal) : Prop :=
  (∃ cmd out err, r = helloSuccess env cmd out err) ∨
  (∃ e, r = .obj [("ok", .bool false), ("error", e)] ∧ helloErrShape env e) ∨
  r = helloNotFound env

theorem helloLoop_shape (env : Env) :
    ∀ (cs : List (List String)) (lastErr : Option JVal) (att : List (List String)),
      (∀ e0, lastErr = some e0 → helloErrShape env e0) →
      helloResultShape env (helloLoop env cs lastErr att).1 := by
  intro cs
  induction cs with
  | nil =>
    intro lastErr att hle
    rw [helloLoop_nil]
    refine Or.inr (Or.inl ⟨lastErr.getD (.str "Unknown error while invoking hello tool"),
      rfl, ?_⟩)
    cases lastErr with
    | none => exact Or.inr (Or.inr (Or.inr rfl))
    | some e0 => exact hle e0 rfl
  | cons cmd rest ih =>
    intro lastErr att hle
    cases hr : env.runProc cmd with
    | completed rc out err =>
      rw [helloLoop_cons_completed hr]
      by_cases h0 : (rc == 0) = true
      · rw [if_pos h0]
        exact Or.inl ⟨cmd, out, err, rfl⟩
      · rw [if_neg h0]
        exact ih _ _ (fun e0 he => by
          injection he with he2
          exact he2 ▸ Or.inl ⟨cmd, rc, out, err, rfl⟩)
    | timedOut =>
      rw [helloLoop_cons_timedOut hr]
      exact ih _ _ (fun e0 he => by
        injection he with he2
        exact he2 ▸ Or.inr (Or.inl ⟨cmd, rfl⟩))
    | startError m =>
      rw [helloLoop_cons_startError hr]
      exact ih _ _ (fun e0 he => by
        injection he with he2
        exact he2 ▸ Or.inr (Or.inr (Or.inl ⟨cmd, m, rfl⟩)))

theorem helloInvoke_shape (env : Env) (args : Args) :
    helloResultShape env (helloInvoke env args).1 := by
  rw [helloInvoke]
  by_cases hc : (helloCandidates env (helloMessageOf args)).isEmpty
  · rw [if_pos hc]
    exact Or.inr (Or.inr rfl)
  · rw [if_neg hc]
    exact helloLoop_shape env _ none _ (fun e0 he => by cases he)

theorem gitInvoke_cases {env : Env} {args : Args} {r : JVal} {sp : List (List String)}
    (h : gitInvoke env args = .ok (r, sp)) :
    (∃ msg, r = gitValFail msg ∧ sp = []) ∨ (∃ argv, (r, sp) = gitRun env args argv) := by
  unfold gitInvoke at h
  cases hs : gitPlanStep env args with
  | error e =>
    rw [hs] at h
    exact Except.noConfusion h
  | ok step =>
    rw [hs] at h
    cases step with
    | valFail m =>
      injection h with h1
      exact Or.inl ⟨m, (Prod.ext_iff.mp h1.symm).1, (Prod.ext_iff.mp h1.symm).2⟩
    | runArgv argv =>
      injection h with h1
      exact Or.inr ⟨argv, h1.symm⟩

theorem gitRun_shape (env : Env) (args : Args) (argv : List String) :
    (∃ rc outT errT parsed,
      (gitRun env args argv).1 =
        .obj [("ok", .bool (rc == 0)), ("returncode", .int rc), ("stdout", .str outT),
          ("stderr", .str errT), ("json", parsed),
          ("command", cmdJ (gitBase env args ++ argv)),
          ("timed_out", .bool false), ("timeout_sec", env.gitTimeout)]) ∨
    ((gitRun env args argv).1 =
      .obj [("ok", .bool false),
        ("error", .str ("timeout after " ++ pyStr env.gitTimeout ++ "s")),
        ("command", cmdJ (gitBase env args ++ argv)), ("timed_out", .bool true),
        ("timeout_sec", env.gitTimeout)]) ∨
    (∃ m, (gitRun env args argv).1 =
      .obj [("ok", .bool false), ("error", .str m),
        ("command", cmdJ (gitBase env args ++ argv))]) := by
  rw [gitRun]
  cases env.runProc (gitBase env args ++ argv) with
  | completed rc out err => exact Or.inl ⟨rc, out.trim, err.trim, _, rfl⟩
  | timedOut => exact Or.inr (Or.inl rfl)
  | startError m => exact Or.inr (Or.inr ⟨m, rfl⟩)

theorem errorResp_id (reqId : JVal) (code : Int) (m : String) :
    jlookup (errorResp reqId code m) "id" = some reqId := rfl

theorem toolsCallResult_id (reqId : JVal) (msg now : String) :
    jlookup (toolsCallResult reqId msg now) "id" = some reqId := rfl

theorem initializeResp_id (reqId : JVal) : jlookup (initializeResp reqId) "id" = some reqId := rfl

theorem toolsListResp_id (reqId : JVal) : jlookup (toolsListResp reqId) "id" = some reqId := rfl

theorem handleToolsCall_id {now : String} {reqId params : JVal} {res : JVal}
    (h : handleToolsCall now reqId params = .ok res) :
    jlookup res "id" = some reqId := by
  unfold handleToolsCall at h
  split at h
  · exact Except.noConfusion h
  · split at h
    · exact Except.noConfusion h
    · split at h
      · injection h with h1
        rw [← h1]
        exact errorResp_id reqId (-32602) _
      · split at h
        · exact Except.noConfusion h
        · split at h
          · injection h with h1
            rw [← h1]
            exact errorResp_id reqId (-32602) _
          · split at h
            · exact Except.noConfusion h
            · split at h
              · injection h with h1
                rw [← h1]
                exact toolsCallResult_id reqId _ now
              · injection h with h1
                rw [← h1]
                exact errorResp_id reqId (-32602) _

theorem serverHandleMessage_single (now : String) (req : List (String × JVal)) :
    ∃ r, serverHandleMessage now req = [r] ∧ jlookup r "id" = some (objGet req "id") := by
  rw [serverHandleMessage]
  by_cases h1 : (jvalEqStr (objGet req "method") "initialize") = true
  · rw [if_pos h1]
    exact ⟨_, rfl, initializeResp_id _⟩
  · rw [if_neg h1]
    by_cases h2 : (jvalEqStr (objGet req "method") "tools/list") = true
    · rw [if_pos h2]
      exact ⟨_, rfl, toolsListResp_id _⟩
    · rw [if_neg h2]
      by_cases h3 : (jvalEqStr (objGet req "method") "tools/call") = true
      · rw [if_pos h3]
        cases hc : handleToolsCall now (objGet req "id") (objGet req "params") with
        | ok r => exact ⟨r, rfl, handleToolsCall_id hc⟩
        | error e => exact ⟨_, rfl, errorResp_id _ (-32000) _⟩
      · rw [if_neg h3]
        exact ⟨_, rfl, errorResp_id _ (-32601) _⟩

/-- Does the message object carry this key at all? -/
def hasKey (kvs : Args) (k : String) : Bool := kvs.any (fun kv => kv.1 == k)

theorem objGet_eq_null_of_no_key {kvs : Args} {k : String} (h : hasKey kvs k = false) :
    objGet kvs k = .null := by
  rw [objGet]
  have : kvs.find? (fun kv => kv.1 == k) = none := by
    rw [List.find?_eq_none]
    intro kv hm
    have := List.any_eq_false.mp h kv hm
    simpa using this
  rw [this]

/-- C3 as stated is false: a parseable message without an `id` still gets a
response.  Sending the notification-shaped message with method `tools/list`
makes the server emit one response line (with `id: null`) instead of none. -/
theorem c3_counterexample :
    serverHandleMessage "2025-01-01 00:00:00" [("method", JVal.str "tools/list")] =
      [toolsListResp JVal.null] := rfl

/-- C3 (amended): for every message without an `id` field, the hello server
emits exactly one response line, whose `id` is `null` — notifications are
answered with a null-correlated reply, never silently ignored. -/
theorem c3_amended_notifications_answered (now : String) (req : List (String × JVal))
    (h : hasKey req "id" = false) :
    ∃ r, serverHandleMessage now req = [r] ∧ jlookup r "id" = some JVal.null := by
  obtain ⟨r, hr, hid⟩ := serverHandleMessage_single now req
  exact ⟨r, hr, by rw [hid, objGet_eq_null_of_no_key h]⟩

theorem c3_amended_witness :
    ∃ r, serverHandleMessage "2025-01-01 00:00:00" [("method", JVal.str "initialize")] = [r] ∧
      jlookup r "id" = some JVal.null :=
  c3_amended_notifications_answered "2025-01-01 00:00:00"
    [("method", JVal.str "initialize")] (by decide)

/-- C4 as stated is false: a planner failure is not converted into a default
safe Plan — it terminates `main` with the planner's exception, and nothing is
dispatched. -/
theorem c4_counterexample :
    hostMain envAllOk true "" (PlanOutcome.failed "boom") = Except.error "boom" := rfl

/-- C4 (amended): planner failure is fatal.  When the ollama package is
unavailable `main` raises immediately; when planning raises or exceeds its
20-second budget, `plan_with_ollama_required` propagates the error and the
host terminates without dispatching any Plan. -/
theorem c4_amended_planner_failure_fatal :
    (∀ (env : Env) (importErr : String) (outcome : PlanOutcome),
      hostMain env false importErr outcome =
        Except.error ("Ollama is required but not available. Please install the ollama "
          ++ "package and ensure no local ollama.py shadows it.")) ∧
    (∀ (env : Env) (importErr m : String),
      hostMain env true importErr (PlanOutcome.failed m) = Except.error m) ∧
    (∀ (env : Env) (importErr : String),
      hostMain env true importErr PlanOutcome.hung =
        Except.error "ollama planning timed out after 20.0 seconds") :=
  ⟨fun _ _ _ => rfl, fun _ _ _ => rfl, fun _ _ => rfl⟩

/-- C5: a Plan whose target is none of the six built-in targets dispatches to
the `unsupported_target` envelope, echoing the Plan's target value, and no
child process is spawned (the attempted-command list is empty). -/
theorem c5_unsupported_target (env : Env) (plan : Args)
    (h : builtinTargets.all (fun s => !(jvalEqStr (argsGet plan "target") s)) = true) :
    dispatchStub env plan =
      .ok (envelope plan (.obj [("status", .str "unsupported_target"),
        ("target", argsGet plan "target")]), []) := by
  have hs : ∀ s ∈ builtinTargets, jvalEqStr (argsGet plan "target") s = false := by
    intro s hsmem
    have := List.all_eq_true.mp h s hsmem
    simpa using this
  have h1 := hs "cve" (by simp [builtinTargets])
  have h2 := hs "pfcm" (by simp [builtinTargets])
  have h3 := hs "product_options" (by simp [builtinTargets])
  have h4 := hs "inspector" (by simp [builtinTargets])
  have h5 := hs "hello" (by simp [builtinTargets])
  have h6 := hs "git" (by simp [builtinTargets])
  simp [dispatchStub, h1, h2, h3, h4, h5, h6]

theorem c5_witness :
    dispatchStub envAllOk [("target", JVal.str "banana")] =
      .ok (envelope [("target", JVal.str "banana")]
        (.obj [("status", .str "unsupported_target"), ("target", JVal.str "banana")]), []) :=
  c5_unsupported_target envAllOk [("target", JVal.str "banana")] (by decide)

theorem pyStr_str (s : String) : pyStr (.str s) = s := rfl

/-- The message-selection rule as the claim words it: the first truthy value
among `text`, `message`, `name`, in that order, else the literal `"hello"`.
Stated separately so the code's `or`-chain can be compared against it. -/
def helloMessageSpec (args : Args) : JVal :=
  if pyTruthy (argsGet args "text") then argsGet args "text"
  else if pyTruthy (argsGet args "message") then argsGet args "message"
  else if pyTruthy (argsGet args "name") then argsGet args "name"
  else .str "hello"

/-- C10 as stated is false for the git invoker's `repo` default: when `repo`
is absent but `repo_path` is given, the invoker uses `repo_path`, not `"."` —
the spawned command line carries `"x"`. -/
theorem c10_counterexample :
    gitRepoOf [("repo_path", JVal.str "x")] = "x" ∧
    (gitInvoke envAllOk [("repo_path", JVal.str "x")]).map (fun p => p.2) =
      .ok [["/usr/bin/python3", "mcp_tools/git/git_client.py", "--repo", "x", "status"]] :=
  ⟨rfl, rfl⟩

/-- C10 (amended): the hello message is the string conversion of the first
truthy value among `text`, `message`, `name` (else `"hello"`); the git
invoker defaults `cmd` to `"status"` when `cmd` is absent or falsy; and
`repo` falls back first to `repo_path` when that is truthy, and only to `"."`
when both `repo` and `repo_path` are absent or falsy. -/
theorem c10_amended_defaults (args : Args) :
    helloMessageOf args = pyStr (helloMessageSpec args) ∧
    (pyTruthy (argsGet args "cmd") = false → gitCmdOf args = "status") ∧
    (pyTruthy (argsGet args "repo") = false → pyTruthy (argsGet args "repo_path") = true →
      gitRepoOf args = pyStr (argsGet args "repo_path")) ∧
    (pyTruthy (argsGet args "repo") = false → pyTruthy (argsGet args "repo_path") = false →
      gitRepoOf args = ".") := by
  refine ⟨?_, ?_, ?_, ?_⟩
  · rw [helloMessageOf, helloMessageSpec]
    by_cases h1 : pyTruthy (argsGet args "text") = true
    · simp [pyOr, h1]
    · simp only [Bool.not_eq_true] at h1
      by_cases h2 : pyTruthy (argsGet args "message") = true
      · simp [pyOr, h1, h2]
      · simp only [Bool.not_eq_true] at h2
        by_cases h3 : pyTruthy (argsGet args "name") = true
        · simp [pyOr, h1, h2, h3]
        · simp only [Bool.not_eq_true] at h3
          simp [pyOr, h1, h2, h3]
  · intro h
    rw [gitCmdOf]
    simp [pyOr, h, pyStr_str]
  · intro h1 h2
    rw [gitRepoOf]
    simp [pyOr, h1, h2]
  · intro h1 h2
    rw [gitRepoOf]
    simp [pyOr, h1, h2, pyStr_str]

theorem c10_amended_witness :
    helloMessageOf [("name", JVal.str "bob")] =
      pyStr (helloMessageSpec [("name", JVal.str "bob")]) ∧
    gitCmdOf [("name", JVal.str "bob")] = "status" ∧
    gitRepoOf [("repo_path", JVal.str "x")] =
      pyStr (argsGet [("repo_path", JVal.str "x")] "repo_path") ∧
    gitRepoOf [] = "." :=
  ⟨(c10_amended_defaults [("name", JVal.str "bob")]).1,
   (c10_amended_defaults [("name", JVal.str "bob")]).2.1 (by decide),
   (c10_amended_defaults [("repo_path", JVal.str "x")]).2.2.1 (by decide) (by decide),
   (c10_amended_defaults []).2.2.2 (by decide) (by decide)⟩

/-- A JSON-RPC Request object `{jsonrpc, id, method, params}` as the clients
and server of this protocol lay it out. -/
def requestObj (reqId : JVal) (method : String) (params : JVal) : JVal :=
  .obj [("jsonrpc", .str "2.0"), ("id", reqId), ("method", .str method),
    ("params", params)]

/-- Decode one wire line the way the server main loop reads a request:
`json.loads`, then `req.get("id")`, `req.get("method")`, `req.get("params")`. -/
def decodeRequestTriple (line : List Char) : Option (JVal × JVal × JVal) :=
  match jsonLoads line with
  | some (.obj kvs) => some (objGet kvs "id", objGet kvs "method", objGet kvs "params")
  | _ => none

/-- Decode one wire line as an ErrorResponse: `json.loads`, then the `id`
and the `code`/`message` of the `error` member. -/
def decodeErrorTriple (line : List Char) : Option (JVal × JVal × JVal) :=
  match jsonLoads line with
  | some (.obj kvs) =>
    match objGet kvs "error" with
    | .obj ekvs => some (objGet kvs "id", objGet ekvs "code", objGet ekvs "message")
    | _ => none
  | _ => none

/-- C9: encoding a Request as one JSON line (`write_json`) and decoding that
line (`json.loads` plus field extraction) is the identity on the
`{id, method, params}` triple, and likewise an ErrorResponse's
`{id, code, message}` survive exactly.  The well-formedness hypotheses say
the embedded values contain no duplicate-key objects, which Python dicts
cannot represent in the first place. -/
theorem c9_wire_roundtrip (reqId p errId : JVal) (method emsg : String) (code : Int)
    (hi : wellFormedJ reqId = true) (hp : wellFormedJ p = true)
    (hi2 : wellFormedJ errId = true) :
    decodeRequestTriple (writeJsonLine (requestObj reqId method p)) =
      some (reqId, .str method, p) ∧
    decodeErrorTriple (writeJsonLine (errorResp errId code emsg)) =
      some (errId, .int code, .str emsg) := by
  constructor
  · have hwf : wellFormedJ (requestObj reqId method p) = true := by
      rw [requestObj, wellFormedJ_obj]
      simp only [wfMembers_cons, wfMembers_nil, wellFormedJ_str, hi, hp,
        Bool.and_true, Bool.true_and, Bool.and_self]
      rfl
    rw [decodeRequestTriple, jsonLoads_writeJsonLine hwf, requestObj]
    rfl
  · have hwf : wellFormedJ (errorResp errId code emsg) = true := by
      rw [errorResp, wellFormedJ_obj]
      simp only [wfMembers_cons, wfMembers_nil, wellFormedJ_str, wellFormedJ_int,
        wellFormedJ_obj, hi2, Bool.and_true, Bool.true_and, Bool.and_self]
      rfl
    rw [decodeErrorTriple, jsonLoads_writeJsonLine hwf, errorResp]
    rfl

theorem c9_witness :
    decodeRequestTriple (writeJsonLine (requestObj (JVal.int 1) "tools/call"
      (JVal.obj [("name", JVal.str "hello")]))) =
      some (JVal.int 1, JVal.str "tools/call", JVal.obj [("name", JVal.str "hello")]) ∧
    decodeErrorTriple (writeJsonLine (errorResp (JVal.int 2) (-32601) "Unknown method")) =
      some (JVal.int 2, JVal.int (-32601), JVal.str "Unknown method") :=
  c9_wire_roundtrip (JVal.int 1) (JVal.obj [("name", JVal.str "hello")]) (JVal.int 2)
    "tools/call" "Unknown method" (-32601) (by decide) (by decide) (by decide)

def exceptOk {α β : Type} : Except α β → Bool
  | .ok _ => true
  | .error _ => false

/-- The arguments under which the git invoker performs no ill-typed `int()`
or `map()` call: numeric fields convert, and `files` (when truthy) is
iterable. -/
def gitArgsWellTyped (args : Args) : Bool :=
  (if gitCmdOf args == "diff-unstaged" || gitCmdOf args == "diff-staged" ||
      gitCmdOf args == "diff"
   then exceptOk (pyToInt (argsGetD args "context_lines" (.int 3))) else true) &&
  (if gitCmdOf args == "log"
   then exceptOk (pyToInt (argsGetD args "max_count" (.int 10))) else true) &&
  (if gitCmdOf args == "add"
   then (!(pyTruthy (pyOr (argsGet args "files") (.arr []))) ||
     exceptOk (pyIterStrs (pyOr (argsGet args "files") (.arr [])))) else true)

theorem gitPlanStep_total {env : Env} {args : Args} (h : gitArgsWellTyped args = true) :
    ∃ step, gitPlanStep env args = .ok step := by
  have h3 := h
  simp only [gitArgsWellTyped, Bool.and_eq_true] at h3
  obtain ⟨⟨hA, hB⟩, hC⟩ := h3
  rw [gitPlanStep]
  by_cases h0 : (!(env.gitPrimaryExists || env.gitAltExists)) = true
  · rw [if_pos h0]
    exact ⟨_, rfl⟩
  · rw [if_neg h0]
    by_cases h1 : (gitCmdOf args == "status") = true
    · rw [if_pos h1]
      exact ⟨_, rfl⟩
    · rw [if_neg h1]
      by_cases h2 : (gitCmdOf args == "diff-unstaged") = true
      · rw [if_pos h2]
        rw [if_pos (show (gitCmdOf args == "diff-unstaged" || gitCmdOf args == "diff-staged" ||
            gitCmdOf args == "diff") = true by simp [h2])] at hA
        cases hpi : pyToInt (argsGetD args "context_lines" (.int 3)) with
        | error e =>
          rw [hpi] at hA
          exact absurd hA (by simp [exceptOk])
        | ok c =>
          exact ⟨_, rfl⟩
      · rw [if_neg h2]
        by_cases h4 : (gitCmdOf args == "diff-staged") = true
        · rw [if_pos h4]
          rw [if_pos (show (gitCmdOf args == "diff-unstaged" || gitCmdOf args == "diff-staged" ||
              gitCmdOf args == "diff") = true by simp [h4])] at hA
          cases hpi : pyToInt (argsGetD args "context_lines" (.int 3)) with
          | error e =>
            rw [hpi] at hA
            exact absurd hA (by simp [exceptOk])
          | ok c =>
            exact ⟨_, rfl⟩
        · rw [if_neg h4]
          by_cases h5 : (gitCmdOf args == "diff") = true
          · rw [if_pos h5]
            rw [if_pos (show (gitCmdOf args == "diff-unstaged" || gitCmdOf args == "diff-staged" ||
                gitCmdOf args == "diff") = true by simp [h5])] at hA
            cases hpi : pyToInt (argsGetD args "context_lines" (.int 3)) with
            | error e =>
              rw [hpi] at hA
              exact absurd hA (by simp [exceptOk])
            | ok c =>
              exact ⟨_, rfl⟩
          · rw [if_neg h5]
            by_cases h6 : (gitCmdOf args == "add") = true
            · rw [if_pos h6]
              rw [if_pos h6] at hC
              by_cases h7 : (!(pyTruthy (pyOr (argsGet args "files") (.arr [])))) = true
              · rw [if_pos h7]
                exact ⟨_, rfl⟩
              · rw [if_neg h7]
                rw [Bool.or_eq_true] at hC
                cases hC with
                | inl hC2 => exact absurd hC2 h7
                | inr hC2 =>
                  cases hpi : pyIterStrs (pyOr (argsGet args "files") (.arr [])) with
                  | error e =>
                    rw [hpi] at hC2
                    exact absurd hC2 (by simp [exceptOk])
                  | ok fs =>
                    exact ⟨_, rfl⟩
            · rw [if_neg h6]
              by_cases h8 : (gitCmdOf args == "reset") = true
              · rw [if_pos h8]
                exact ⟨_, rfl⟩
              · rw [if_neg h8]
                by_cases h9 : (gitCmdOf args == "commit") = true
                · rw [if_pos h9]
                  by_cases h10 : (pyStr (pyOr (argsGet args "message") (.str "")) == "") = true
                  · rw [if_pos h10]
                    exact ⟨_, rfl⟩
                  · rw [if_neg h10]
                    exact ⟨_, rfl⟩
                · rw [if_neg h9]
                  by_cases h11 : (gitCmdOf args == "log") = true
                  · rw [if_pos h11]
                    rw [if_pos h11] at hB
                    cases hpi : pyToInt (argsGetD args "max_count" (.int 10)) with
                    | error e =>
                      rw [hpi] at hB
                      exact absurd hB (by simp [exceptOk])
                    | ok mc =>
                      exact ⟨_, rfl⟩
                  · rw [if_neg h11]
                    by_cases h12 : (gitCmdOf args == "create-branch") = true
                    · rw [if_pos h12]
                      by_cases h13 : (pyStr (pyOr (pyOr (argsGet args "name")
                          (argsGet args "branch_name")) (.str "")) == "") = true
                      · rw [if_pos h13]
                        exact ⟨_, rfl⟩
                      · rw [if_neg h13]
                        exact ⟨_, rfl⟩
                    · rw [if_neg h12]
                      by_cases h14 : (gitCmdOf args == "checkout") = true
                      · rw [if_pos h14]
                        by_cases h15 : (pyStr (pyOr (pyOr (argsGet args "name")
                            (argsGet args "branch_name")) (.str "")) == "") = true
                        · rw [if_pos h15]
                          exact ⟨_, rfl⟩
                        · rw [if_neg h15]
                          exact ⟨_, rfl⟩
                      · rw [if_neg h14]
                        by_cases h16 : (gitCmdOf args == "show") = true
                        · rw [if_pos h16]
                          exact ⟨_, rfl⟩
                        · rw [if_neg h16]
                          by_cases h17 : (gitCmdOf args == "init") = true
                          · rw [if_pos h17]
                            exact ⟨_, rfl⟩
                          · rw [if_neg h17]
                            by_cases h18 : (gitCmdOf args == "branch") = true
                            · rw [if_pos h18]
                              exact ⟨_, rfl⟩
                            · rw [if_neg h18]
                              by_cases h19 : (gitCmdOf args == "call") = true
                              · rw [if_pos h19]
                                exact ⟨_, rfl⟩
                              · rw [if_neg h19]
                                exact ⟨_, rfl⟩

theorem jvalEqStr_eq {v : JVal} {s : String} (h : jvalEqStr v s = true) : v = .str s := by
  cases v with
  | str t => simp only [jvalEqStr, beq_iff_eq] at h; rw [h]
  | null => exact Bool.noConfusion h
  | bool b => exact Bool.noConfusion h
  | int n => exact Bool.noConfusion h
  | arr xs => exact Bool.noConfusion h
  | obj kvs => exact Bool.noConfusion h

theorem pyOr_obj_empty (a : Args) : pyOr (.obj a) (.obj []) = .obj a := by
  rw [pyOr]
  by_cases h : pyTruthy (.obj a) = true
  · rw [if_pos h]
  · have ha : a = [] := by
      cases a with
      | nil => rfl
      | cons x t => exact absurd rfl h
    rw [if_neg h, ha]

/-- The `error` mapping recorded for a failing candidate always carries the
candidate as its `command` and is marked `ok=false`. -/
theorem lastErrOf_fields (env : Env) (cmd : List String) :
    jlookup (lastErrOf env cmd) "command" = some (cmdJ cmd) ∧
    jlookup (lastErrOf env cmd) "ok" = some (.bool false) := by
  cases hr : env.runProc cmd with
  | completed rc out err => rw [lastErrOf_completed hr]; exact ⟨rfl, rfl⟩
  | timedOut => rw [lastErrOf_timedOut hr]; exact ⟨rfl, rfl⟩
  | startError m => rw [lastErrOf_startError hr]; exact ⟨rfl, rfl⟩

/-- When every candidate fails, the hello loop returns `ok=false` with the
last candidate as the recorded failure, having attempted all of them. -/
theorem helloLoop_allFail_append (env : Env) :
    ∀ (pre : List (List String)) (c : List String),
      (∀ c2 ∈ pre ++ [c], attemptFails env c2 = true) →
      ∀ (lastErr : Option JVal) (att : List (List String)),
        helloLoop env (pre ++ [c]) lastErr att =
          (.obj [("ok", .bool false), ("error", lastErrOf env c)], att ++ pre ++ [c]) := by
  intro pre
  induction pre with
  | nil =>
    intro c hall lastErr att
    have h0 := hall c (by simp)
    simp only [attemptFails] at h0
    cases hr : env.runProc c with
    | completed rc out err =>
      rw [hr] at h0
      simp only [Bool.not_eq_true'] at h0
      rw [List.nil_append, helloLoop_cons_completed hr, if_neg (by simp [h0]), helloLoop_nil,
        lastErrOf_completed hr]
      simp
    | timedOut =>
      rw [List.nil_append, helloLoop_cons_timedOut hr, helloLoop_nil, lastErrOf_timedOut hr]
      simp
    | startError m =>
      rw [List.nil_append, helloLoop_cons_startError hr, helloLoop_nil, lastErrOf_startError hr]
      simp
  | cons x t ih =>
    intro c hall lastErr att
    have h0 := hall x (by simp)
    have hrest : ∀ c2 ∈ t ++ [c], attemptFails env c2 = true := fun c2 h2 => hall c2 (by simp [h2])
    simp only [attemptFails] at h0
    rw [List.cons_append]
    cases hr : env.runProc x with
    | completed rc out err =>
      rw [hr] at h0
      simp only [Bool.not_eq_true'] at h0
      rw [helloLoop_cons_completed hr, if_neg (by simp [h0]), ih c hrest]
      simp
    | timedOut =>
      rw [helloLoop_cons_timedOut hr, ih c hrest]
      simp
    | startError m =>
      rw [helloLoop_cons_startError hr, ih c hrest]
      simp

/-- C1 as stated is false for the git invoker: a `log` call whose `max_count`
is a non-numeric string makes the `int()` conversion raise a ValueError that
escapes the invoker boundary instead of being encoded as `ok=false`. -/
theorem c1_counterexample :
    gitInvoke envAllFail [("cmd", .str "log"), ("max_count", .str "abc")] =
      .error "invalid literal for int() with base 10: abc" := by rfl

/-- C1 (amended): the hello invoker is total — for every args mapping its
result is a success mapping, a failure mapping with `ok=false` and an
explanatory `error`, or the not-found mapping; the git invoker returns a
result mapping with a Boolean `ok` field whenever its arguments do not make
an `int()` or `map()` conversion raise. -/
theorem c1_amended_no_raise (env : Env) (args : Args)
    (h : gitArgsWellTyped args = true) :
    helloResultShape env (helloInvoke env args).1 ∧
    ∃ r sp, gitInvoke env args = .ok (r, sp) ∧ ∃ b, jlookup r "ok" = some (.bool b) := by
  refine ⟨helloInvoke_shape env args, ?_⟩
  obtain ⟨step, hs⟩ := @gitPlanStep_total env args h
  cases step with
  | valFail m =>
    refine ⟨gitValFail m, [], ?_, false, rfl⟩
    rw [gitInvoke, hs]
  | runArgv argv =>
    have hg : gitInvoke env args = .ok (gitRun env args argv) := by rw [gitInvoke, hs]
    refine ⟨(gitRun env args argv).1, (gitRun env args argv).2, by rw [hg], ?_⟩
    rcases gitRun_shape env args argv with ⟨rc, o, e2, pj, hsh⟩ | hsh | ⟨m, hsh⟩
    · exact ⟨(rc == 0), by rw [hsh]; rfl⟩
    · exact ⟨false, by rw [hsh]; rfl⟩
    · exact ⟨false, by rw [hsh]; rfl⟩

theorem c1_witness :
    gitArgsWellTyped [] = true ∧
    (helloResultShape envAllFail (helloInvoke envAllFail []).1 ∧
     ∃ r sp, gitInvoke envAllFail [] = .ok (r, sp) ∧ ∃ b, jlookup r "ok" = some (.bool b)) :=
  ⟨rfl, c1_amended_no_raise envAllFail [] rfl⟩

/-- The failing environment with a twist: the four-element first candidate
(`--message` form) exits non-zero, any other command succeeds. -/
def envSecondOk : Env :=
  { envAllFail with
    runProc := fun cmd =>
      if cmd.length == 4 then .completed 1 "" "usage" else .completed 0 "hi" "" }

/-- C2 as stated is false for the all-fail case: the returned mapping has no
top-level `command` key at all — the last candidate only appears nested inside
the `error` mapping. -/
theorem c2_counterexample :
    jlookup (helloInvoke envAllFail []).1 "ok" = some (.bool false) ∧
    jlookup (helloInvoke envAllFail []).1 "command" = none := ⟨rfl, rfl⟩

/-- C2 (amended): candidates run in order and the first one exiting zero
yields the `ok=true` result naming that candidate as `command`; when every
candidate fails, the result is `ok=false` with the last attempt recorded in
the nested `error` mapping (whose `command` is the last candidate), not in a
top-level `command` field. -/
theorem c2_amended_fallback (env : Env) (args : Args) (pre : List (List String))
    (c : List String) :
    (∀ rest out err,
      helloCandidates env (helloMessageOf args) = pre ++ c :: rest →
      (∀ c2 ∈ pre, attemptFails env c2 = true) →
      env.runProc c = .completed 0 out err →
      helloInvoke env args = (helloSuccess env c out err, pre ++ [c]) ∧
      jlookup (helloSuccess env c out err) "ok" = some (.bool true) ∧
      jlookup (helloSuccess env c out err) "command" = some (cmdJ c)) ∧
    (helloCandidates env (helloMessageOf args) = pre ++ [c] →
      (∀ c2 ∈ pre ++ [c], attemptFails env c2 = true) →
      helloInvoke env args =
        (.obj [("ok", .bool false), ("error", lastErrOf env c)], pre ++ [c]) ∧
      jlookup (lastErrOf env c) "command" = some (cmdJ c) ∧
      jlookup (lastErrOf env c) "ok" = some (.bool false)) := by
  constructor
  · intro rest out err hcand hpre hc
    refine ⟨?_, rfl, rfl⟩
    rw [helloInvoke, hcand]
    rw [if_neg (show ¬ ((pre ++ c :: rest).isEmpty = true) from by simp)]
    rw [helloLoop_firstSuccess env pre c out err rest none [] hpre hc]
    simp
  · intro hcand hall
    refine ⟨?_, (lastErrOf_fields env c).1, (lastErrOf_fields env c).2⟩
    rw [helloInvoke, hcand]
    rw [if_neg (show ¬ ((pre ++ [c]).isEmpty = true) from by simp)]
    rw [helloLoop_allFail_append env pre c hall none []]
    simp

theorem c2_witness :
    (helloInvoke envSecondOk [] =
      (helloSuccess envSecondOk
        ["/usr/bin/python3", "mcp_tools/hello/hello_client.py", "hello"] "hi" "",
       [["/usr/bin/python3", "mcp_tools/hello/hello_client.py", "--message", "hello"]] ++
         [["/usr/bin/python3", "mcp_tools/hello/hello_client.py", "hello"]]) ∧
     jlookup (helloSuccess envSecondOk
        ["/usr/bin/python3", "mcp_tools/hello/hello_client.py", "hello"] "hi" "") "ok" =
       some (.bool true) ∧
     jlookup (helloSuccess envSecondOk
        ["/usr/bin/python3", "mcp_tools/hello/hello_client.py", "hello"] "hi" "") "command" =
       some (cmdJ ["/usr/bin/python3", "mcp_tools/hello/hello_client.py", "hello"])) ∧
    (helloInvoke envAllFail [] =
      (.obj [("ok", .bool false),
        ("error", lastErrOf envAllFail
          ["/usr/bin/python3", "mcp_tools/hello/hello_client.py", "hello"])],
       [["/usr/bin/python3", "mcp_tools/hello/hello_client.py", "--message", "hello"]] ++
         [["/usr/bin/python3", "mcp_tools/hello/hello_client.py", "hello"]]) ∧
     jlookup (lastErrOf envAllFail
        ["/usr/bin/python3", "mcp_tools/hello/hello_client.py", "hello"]) "command" =
       some (cmdJ ["/usr/bin/python3", "mcp_tools/hello/hello_client.py", "hello"]) ∧
     jlookup (lastErrOf envAllFail
        ["/usr/bin/python3", "mcp_tools/hello/hello_client.py", "hello"]) "ok" =
       some (.bool false)) :=
  ⟨(c2_amended_fallback envSecondOk []
      [["/usr/bin/python3", "mcp_tools/hello/hello_client.py", "--message", "hello"]]
      ["/usr/bin/python3", "mcp_tools/hello/hello_client.py", "hello"]).1 [] "hi" "" rfl
      (fun c2 h2 => by rw [List.mem_singleton] at h2; subst h2; rfl) rfl,
   (c2_amended_fallback envAllFail []
      [["/usr/bin/python3", "mcp_tools/hello/hello_client.py", "--message", "hello"]]
      ["/usr/bin/python3", "mcp_tools/hello/hello_client.py", "hello"]).2 rfl
      (fun c2 h2 => rfl)⟩

/-- Does the arguments dict lack a string-valued `message` entry (counting the
first binding, as a Python dict would hold)? -/
def lacksStrMessage (a : Args) : Bool :=
  match a.find? (fun kv => kv.1 == "message") with
  | some kv => match kv.2 with
    | .str _ => false
    | _ => true
  | none => true

/-- C6 as stated is false: a `tools/call` whose `arguments` is a non-iterable
value (here an int) makes the `in` test raise a TypeError, which the server
maps to code -32000, not -32602. -/
theorem c6_counterexample :
    serverHandleMessage "now"
      [("jsonrpc", .str "2.0"), ("id", .int 1), ("method", .str "tools/call"),
       ("params", .obj [("name", .str "hello"), ("arguments", .int 5)])] =
      [errorResp (.int 1) (-32000)
        "Server error: argument of type int is not iterable"] := rfl

/-- C6 (amended): for a `tools/call` whose params form a dict, an unknown tool
name yields a -32602 error response naming the tool, and — when the tool is
`hello` and `arguments` is a dict — a missing or non-string `message` yields
the -32602 invalid-params response; both responses carry the request id. -/
theorem c6_amended_invalid_params (now : String) (req p a : List (String × JVal))
    (hm : jvalEqStr (objGet req "method") "tools/call" = true)
    (hp : objGet req "params" = .obj p) :
    (jvalEqStr (objGet p "name") "hello" = false →
      serverHandleMessage now req =
        [errorResp (objGet req "id") (-32602)
          ("Unknown tool: " ++ pyStr (objGet p "name"))]) ∧
    (objGet p "name" = .str "hello" →
      objGet p "arguments" = .obj a →
      lacksStrMessage a = true →
      serverHandleMessage now req =
        [errorResp (objGet req "id") (-32602)
          "Invalid params: \x27message\x27 (string) is required"]) := by
  have hv := jvalEqStr_eq hm
  have hroute : serverHandleMessage now req =
      match handleToolsCall now (objGet req "id") (.obj p) with
      | .ok r => [r]
      | .error e => [errorResp (objGet req "id") (-32000) ("Server error: " ++ e)] := by
    rw [serverHandleMessage, hv, hp]
    rw [if_neg (show ¬ (jvalEqStr (.str "tools/call") "initialize" = true) from by decide)]
    rw [if_neg (show ¬ (jvalEqStr (.str "tools/call") "tools/list" = true) from by decide)]
    rw [if_pos (show jvalEqStr (.str "tools/call") "tools/call" = true from by decide)]
  constructor
  · intro hn
    have hcall : handleToolsCall now (objGet req "id") (.obj p) =
        .ok (errorResp (objGet req "id") (-32602)
          ("Unknown tool: " ++ pyStr (objGet p "name"))) := by
      simp only [handleToolsCall, pyOr_obj_empty, pyGet, hn, Bool.not_false, if_true]
    rw [hroute, hcall]
  · intro hn ha hlm
    have hcall : handleToolsCall now (objGet req "id") (.obj p) =
        .ok (errorResp (objGet req "id") (-32602)
          "Invalid params: \x27message\x27 (string) is required") := by
      simp only [handleToolsCall, pyOr_obj_empty, pyGet, hn, ha, jvalEqStr,
        beq_self_eq_true, Bool.not_true, Bool.false_eq_true, if_false, pyContains]
      cases hf : a.find? (fun kv => kv.1 == "message") with
      | none =>
        have hany : a.any (fun kv => kv.1 == "message") = false := by
          rw [List.any_eq_false]
          intro kv hkv
          have h2 := List.find?_eq_none.mp hf kv hkv
          simpa using h2
        rw [hany]
        rw [if_pos (show ((!false) = true) from rfl)]
      | some kv =>
        have hany : a.any (fun kv => kv.1 == "message") = true := by
          rw [List.any_eq_true]
          have hpkv := List.find?_some hf
          exact ⟨kv, List.mem_of_find?_eq_some hf, hpkv⟩
        rw [hany, if_neg (show ¬ ((!true) = true) from by decide)]
        simp only [pySubscript, hf]
        cases hkv2 : kv.2 with
        | str s =>
          exfalso
          simp only [lacksStrMessage, hf, hkv2] at hlm
          exact Bool.noConfusion hlm
        | null => rfl
        | bool b => rfl
        | int n => rfl
        | arr xs => rfl
        | obj kvs => rfl
    rw [hroute, hcall]

theorem c6_witness :
    serverHandleMessage "t"
      [("id", .int 1), ("method", .str "tools/call"),
       ("params", .obj [("name", .str "bye")])] =
      [errorResp (.int 1) (-32602) "Unknown tool: bye"] ∧
    serverHandleMessage "t"
      [("id", .int 2), ("method", .str "tools/call"),
       ("params", .obj [("name", .str "hello"), ("arguments", .obj [])])] =
      [errorResp (.int 2) (-32602) "Invalid params: \x27message\x27 (string) is required"] :=
  ⟨(c6_amended_invalid_params "t"
      [("id", .int 1), ("method", .str "tools/call"),
       ("params", .obj [("name", .str "bye")])]
      [("name", .str "bye")] [] rfl rfl).1 rfl,
   (c6_amended_invalid_params "t"
      [("id", .int 2), ("method", .str "tools/call"),
       ("params", .obj [("name", .str "hello"), ("arguments", .obj [])])]
      [("name", .str "hello"), ("arguments", .obj [])] [] rfl rfl).2 rfl rfl rfl⟩

/-- C7 as stated is false: `checkout` with no `name` falls back to
`branch_name`, so a request with only `branch_name` set spawns the client
instead of failing validation. -/
theorem c7_counterexample :
    (gitInvoke envAllOk [("cmd", .str "checkout"), ("branch_name", .str "dev")]).map
      (fun r => r.2) =
      .ok [["/usr/bin/python3", "mcp_tools/git/git_client.py", "--repo", ".",
        "checkout", "--name", "dev"]] := by rfl

/-- C7 (amended): with the client script present, `commit` with a falsy
`message`, `add` with a falsy `files`, and `create-branch`/`checkout` with
both `name` and `branch_name` falsy are rejected as pure validation failures:
the exact `ok=false` mapping is returned, nothing is spawned, and such a
mapping carries an `error` but no `command` field. -/
theorem c7_amended_validation (env : Env) (args : Args)
    (hcl : (env.gitPrimaryExists || env.gitAltExists) = true) :
    ((gitCmdOf args == "commit") = true →
      (pyStr (pyOr (argsGet args "message") (.str "")) == "") = true →
      gitInvoke env args = .ok (gitValFail "\x27commit\x27 requires \x27message\x27", [])) ∧
    ((gitCmdOf args == "add") = true →
      pyTruthy (pyOr (argsGet args "files") (.arr [])) = false →
      gitInvoke env args = .ok (gitValFail "\x27add\x27 requires \x27files\x27 list", [])) ∧
    ((gitCmdOf args == "create-branch") = true →
      (pyStr (pyOr (pyOr (argsGet args "name") (argsGet args "branch_name")) (.str "")) ==
        "") = true →
      gitInvoke env args = .ok (gitValFail "\x27create-branch\x27 requires \x27name\x27", [])) ∧
    ((gitCmdOf args == "checkout") = true →
      (pyStr (pyOr (pyOr (argsGet args "name") (argsGet args "branch_name")) (.str "")) ==
        "") = true →
      gitInvoke env args = .ok (gitValFail "\x27checkout\x27 requires \x27name\x27", [])) ∧
    (∀ m, jlookup (gitValFail m) "ok" = some (.bool false) ∧
      jlookup (gitValFail m) "error" = some (.str m) ∧
      jlookup (gitValFail m) "command" = none) := by
  have hfound : ¬ ((!(env.gitPrimaryExists || env.gitAltExists)) = true) := by simp [hcl]
  refine ⟨?_, ?_, ?_, ?_, fun m => ⟨rfl, rfl, rfl⟩⟩
  · intro hc hmsg
    have hcmd : gitCmdOf args = "commit" := by simpa using hc
    have hstep : gitPlanStep env args = .ok (.valFail "\x27commit\x27 requires \x27message\x27") := by
      rw [gitPlanStep]
      rw [if_neg hfound]
      rw [if_neg (show ¬ ((gitCmdOf args == "status") = true) from by simp [hcmd])]
      rw [if_neg (show ¬ ((gitCmdOf args == "diff-unstaged") = true) from by simp [hcmd])]
      rw [if_neg (show ¬ ((gitCmdOf args == "diff-staged") = true) from by simp [hcmd])]
      rw [if_neg (show ¬ ((gitCmdOf args == "diff") = true) from by simp [hcmd])]
      rw [if_neg (show ¬ ((gitCmdOf args == "add") = true) from by simp [hcmd])]
      rw [if_neg (show ¬ ((gitCmdOf args == "reset") = true) from by simp [hcmd])]
      rw [if_pos (show (gitCmdOf args == "commit") = true from by simp [hcmd])]
      rw [if_pos hmsg]
    rw [gitInvoke, hstep]
  · intro hc hfiles
    have hcmd : gitCmdOf args = "add" := by simpa using hc
    have hstep : gitPlanStep env args = .ok (.valFail "\x27add\x27 requires \x27files\x27 list") := by
      rw [gitPlanStep]
      rw [if_neg hfound]
      rw [if_neg (show ¬ ((gitCmdOf args == "status") = true) from by simp [hcmd])]
      rw [if_neg (show ¬ ((gitCmdOf args == "diff-unstaged") = true) from by simp [hcmd])]
      rw [if_neg (show ¬ ((gitCmdOf args == "diff-staged") = true) from by simp [hcmd])]
      rw [if_neg (show ¬ ((gitCmdOf args == "diff") = true) from by simp [hcmd])]
      rw [if_pos (show (gitCmdOf args == "add") = true from by simp [hcmd])]
      rw [if_pos (show (!(pyTruthy (pyOr (argsGet args "files") (.arr [])))) = true from
        by simp [hfiles])]
    rw [gitInvoke, hstep]
  · intro hc hname
    have hcmd : gitCmdOf args = "create-branch" := by simpa using hc
    have hstep : gitPlanStep env args =
        .ok (.valFail "\x27create-branch\x27 requires \x27name\x27") := by
      rw [gitPlanStep]
      rw [if_neg hfound]
      rw [if_neg (show ¬ ((gitCmdOf args == "status") = true) from by simp [hcmd])]
      rw [if_neg (show ¬ ((gitCmdOf args == "diff-unstaged") = true) from by simp [hcmd])]
      rw [if_neg (show ¬ ((gitCmdOf args == "diff-staged") = true) from by simp [hcmd])]
      rw [if_neg (show ¬ ((gitCmdOf args == "diff") = true) from by simp [hcmd])]
      rw [if_neg (show ¬ ((gitCmdOf args == "add") = true) from by simp [hcmd])]
      rw [if_neg (show ¬ ((gitCmdOf args == "reset") = true) from by simp [hcmd])]
      rw [if_neg (show ¬ ((gitCmdOf args == "commit") = true) from by simp [hcmd])]
      rw [if_neg (show ¬ ((gitCmdOf args == "log") = true) from by simp [hcmd])]
      rw [if_pos (show (gitCmdOf args == "create-branch") = true from by simp [hcmd])]
      rw [if_pos hname]
    rw [gitInvoke, hstep]
  · intro hc hname
    have hcmd : gitCmdOf args = "checkout" := by simpa using hc
    have hstep : gitPlanStep env args =
        .ok (.valFail "\x27checkout\x27 requires \x27name\x27") := by
      rw [gitPlanStep]
      rw [if_neg hfound]
      rw [if_neg (show ¬ ((gitCmdOf args == "status") = true) from by simp [hcmd])]
      rw [if_neg (show ¬ ((gitCmdOf args == "diff-unstaged") = true) from by simp [hcmd])]
      rw [if_neg (show ¬ ((gitCmdOf args == "diff-staged") = true) from by simp [hcmd])]
      rw [if_neg (show ¬ ((gitCmdOf args == "diff") = true) from by simp [hcmd])]
      rw [if_neg (show ¬ ((gitCmdOf args == "add") = true) from by simp [hcmd])]
      rw [if_neg (show ¬ ((gitCmdOf args == "reset") = true) from by simp [hcmd])]
      rw [if_neg (show ¬ ((gitCmdOf args == "commit") = true) from by simp [hcmd])]
      rw [if_neg (show ¬ ((gitCmdOf args == "log") = true) from by simp [hcmd])]
      rw [if_neg (show ¬ ((gitCmdOf args == "create-branch") = true) from by simp [hcmd])]
      rw [if_pos (show (gitCmdOf args == "checkout") = true from by simp [hcmd])]
      rw [if_pos hname]
    rw [gitInvoke, hstep]

theorem c7_witness :
    gitInvoke envAllOk [("cmd", .str "commit")] =
      .ok (gitValFail "\x27commit\x27 requires \x27message\x27", []) ∧
    gitInvoke envAllOk [("cmd", .str "add")] =
      .ok (gitValFail "\x27add\x27 requires \x27files\x27 list", []) ∧
    gitInvoke envAllOk [("cmd", .str "create-branch")] =
      .ok (gitValFail "\x27create-branch\x27 requires \x27name\x27", []) ∧
    gitInvoke envAllOk [("cmd", .str "checkout")] =
      .ok (gitValFail "\x27checkout\x27 requires \x27name\x27", []) ∧
    jlookup (gitValFail "\x27commit\x27 requires \x27message\x27") "command" = none :=
  ⟨(c7_amended_validation envAllOk [("cmd", .str "commit")] rfl).1 rfl rfl,
   (c7_amended_validation envAllOk [("cmd", .str "add")] rfl).2.1 rfl rfl,
   (c7_amended_validation envAllOk [("cmd", .str "create-branch")] rfl).2.2.1 rfl rfl,
   (c7_amended_validation envAllOk [("cmd", .str "checkout")] rfl).2.2.2.1 rfl rfl,
   ((c7_amended_validation envAllOk [("cmd", .str "commit")] rfl).2.2.2.2
      "\x27commit\x27 requires \x27message\x27").2.2⟩

/-- C8: in every result mapping either invoker can produce — the hello
invoker's top-level result, the failure mapping recorded in its `error`
field, and the git invoker's result — a true `timed_out` flag forces
`ok=false`. -/
theorem c8_timeout_implies_not_ok (env : Env) (args : Args) :
    (jlookup (helloInvoke env args).1 "timed_out" = some (.bool true) →
      jlookup (helloInvoke env args).1 "ok" = some (.bool false)) ∧
    (∀ e, jlookup (helloInvoke env args).1 "error" = some e →
      jlookup e "timed_out" = some (.bool true) →
      jlookup e "ok" = some (.bool false)) ∧
    (∀ r sp, gitInvoke env args = .ok (r, sp) →
      jlookup r "timed_out" = some (.bool true) →
      jlookup r "ok" = some (.bool false)) := by
  refine ⟨?_, ?_, ?_⟩
  · intro ht
    rcases helloInvoke_shape env args with ⟨cmd, out, err, hr⟩ | ⟨e, hr, hes⟩ | hr
    · rw [hr] at ht
      have hv : jlookup (helloSuccess env cmd out err) "timed_out" = some (.bool false) := rfl
      rw [hv] at ht
      injection ht with ht2
      exact absurd ht2 (by simp)
    · rw [hr]
      rfl
    · rw [hr]
      rfl
  · intro e he ht
    rcases helloInvoke_shape env args with ⟨cmd, out, err, hr⟩ | ⟨e2, hr, hes⟩ | hr
    · rw [hr] at he
      have hv : jlookup (helloSuccess env cmd out err) "error" = none := rfl
      rw [hv] at he
      exact Option.noConfusion he
    · rw [hr] at he
      have hv : jlookup (.obj [("ok", JVal.bool false), ("error", e2)]) "error" = some e2 := rfl
      rw [hv] at he
      injection he with he2
      subst he2
      rcases hes with ⟨cmd, rc, out, err, hsh⟩ | ⟨cmd, hsh⟩ | ⟨cmd, m, hsh⟩ | hsh
      · rw [hsh]
        rfl
      · rw [hsh]
        rfl
      · rw [hsh]
        rfl
      · rw [hsh] at ht
        exact Option.noConfusion ht
    · rw [hr] at he
      have hv : jlookup (helloNotFound env) "error" = some (.str "Hello tool not found") := rfl
      rw [hv] at he
      injection he with he2
      subst he2
      exact Option.noConfusion ht
  · intro r sp hg ht
    rcases gitInvoke_cases hg with ⟨m, hr, hsp⟩ | ⟨argv, hpair⟩
    · rw [hr] at ht
      exact Option.noConfusion ht
    · have hr : r = (gitRun env args argv).1 := by
        have := congrArg Prod.fst hpair
        simpa using this
      rcases gitRun_shape env args argv with ⟨rc, o, e2, pj, hsh⟩ | hsh | ⟨m, hsh⟩
      · rw [hr, hsh] at ht
        have hv : jlookup
            (JVal.obj [("ok", JVal.bool (rc == 0)), ("returncode", JVal.int rc),
              ("stdout", JVal.str o), ("stderr", JVal.str e2), ("json", pj),
              ("command", cmdJ (gitBase env args ++ argv)),
              ("timed_out", JVal.bool false), ("timeout_sec", env.gitTimeout)])
            "timed_out" = some (.bool false) := rfl
        rw [hv] at ht
        injection ht with ht2
        exact absurd ht2 (by simp)
      · rw [hr, hsh]
        rfl
      · rw [hr, hsh] at ht
        exact Option.noConfusion ht

theorem c8_witness :
    jlookup (helloTimeoutErr envAllTimeout
      ["/usr/bin/python3", "mcp_tools/hello/hello_client.py", "hello"]) "ok" =
        some (.bool false) ∧
    jlookup (.obj [("ok", JVal.bool false), ("error", .str ("timeout after " ++ pyStr (JVal.int 20) ++ "s")),
      ("command", cmdJ ["/usr/bin/python3", "mcp_tools/git/git_client.py", "--repo", ".",
        "status"]),
      ("timed_out", .bool true), ("timeout_sec", .int 20)]) "ok" = some (.bool false) :=
  ⟨(c8_timeout_implies_not_ok envAllTimeout []).2.1
      (helloTimeoutErr envAllTimeout
        ["/usr/bin/python3", "mcp_tools/hello/hello_client.py", "hello"]) rfl rfl,
   (c8_timeout_implies_not_ok envAllTimeout []).2.2
      (.obj [("ok", JVal.bool false), ("error", .str ("timeout after " ++ pyStr (JVal.int 20) ++ "s")),
        ("command", cmdJ ["/usr/bin/python3", "mcp_tools/git/git_client.py", "--repo", ".",
          "status"]),
        ("timed_out", .bool true), ("timeout_sec", .int 20)])
      [["/usr/bin/python3", "mcp_tools/git/git_client.py", "--repo", ".", "status"]]
      (by rfl) rfl⟩
